import Mathlib

/-!
Verification development for the PyWol post-wake monitor supervisor
(src/app/monitor.py) and its reachability probe (src/app/wol.py).

Embedding conventions:
  * Timestamps (time.time) are modelled as natural numbers; every operation
    that reads the clock takes an explicit `now` argument.
  * MonitorState objects are mutable and shared between the manager map and
    the asyncio task closure, so they live in a heap `records : List
    MonitorState`; the dict `self._monitors` maps a machine id to a heap
    index.  The dict is an association list with at most one binding per key
    (insertion replaces).
  * An asyncio.Task running WakeMonitorManager._run is modelled by a program
    counter naming the suspension point the coroutine is parked at
    (the initial sleep(5), the await of check_host_online, and the
    inter-attempt sleep) plus a cancellation flag set by Task.cancel().
    Code between two awaits runs atomically (single event loop), so each
    resume step performs exactly the mutations of one such segment.
  * check_host_online is total in the source (it catches every exception and
    returns a bool); the nondeterministic fate of the spawned ping process is
    an explicit PingOutcome argument, and the function also reports whether a
    subprocess spawn was attempted, so the result type is Bool x Bool
    (result, probed).
  * The _evict closures created by _schedule_eviction capture the machine id
    and generation by value; they are kept in a list of pending eviction
    tasks, each recording the delay (_EVICT_AFTER) it sleeps before firing.
-/

-- ── Status enum (MonitorStatus in monitor.py) ─────────────────────────────

inductive MonitorStatus where
  | PENDING
  | CHECKING
  | ONLINE
  | TIMEOUT
  | CANCELLED
  | NO_IP
deriving DecidableEq, Repr

/-- MonitorState.is_terminal from monitor.py. -/
def isTerminal (s : MonitorStatus) : Bool :=
  match s with
  | .ONLINE => true
  | .TIMEOUT => true
  | .CANCELLED => true
  | .NO_IP => true
  | _ => false

/-- The .value string of each MonitorStatus member. -/
def statusValue (s : MonitorStatus) : String :=
  match s with
  | .PENDING => "pending"
  | .CHECKING => "checking"
  | .ONLINE => "online"
  | .TIMEOUT => "timeout"
  | .CANCELLED => "cancelled"
  | .NO_IP => "no_ip"

-- ── Task model: the suspension points of WakeMonitorManager._run ──────────

/-- The await the _run coroutine is currently parked at, or taskDone once the
coroutine has returned (asyncio.Task.done). -/
inductive TaskPC where
  | initialSleep   -- await asyncio.sleep(5)
  | probing        -- await check_host_online(state.ip_address, timeout=2)
  | intervalSleep  -- await asyncio.sleep(state.interval)
  | taskDone
deriving DecidableEq, Repr

structure TaskState where
  pc : TaskPC
  cancelRequested : Bool
deriving DecidableEq, Repr

-- ── MonitorState (dataclass in monitor.py) ────────────────────────────────

structure MonitorState where
  machine_id : Int
  machine_name : String
  ip_address : String
  generation : Nat := 0
  status : MonitorStatus := .PENDING
  attempts : Nat := 0
  max_attempts : Nat := 15
  interval : Nat := 10
  started_at : Nat
  finished_at : Option Nat := none
  task : Option TaskState := none   -- the _task field
deriving DecidableEq, Repr

/-- MonitorState.elapsed: finished_at (or now) minus started_at. -/
def elapsed (r : MonitorState) (now : Nat) : Nat :=
  (r.finished_at.getD now) - r.started_at

/-- The dict returned by MonitorState.to_dict. -/
structure RecordSnapshot where
  machine_id : Int
  machine_name : String
  ip_address : String
  status : String
  attempts : Nat
  max_attempts : Nat
  elapsed : Nat
  finished : Bool
deriving DecidableEq, Repr

/-- MonitorState.to_dict from monitor.py. -/
def to_dict (r : MonitorState) (now : Nat) : RecordSnapshot :=
  { machine_id := r.machine_id
    machine_name := r.machine_name
    ip_address := r.ip_address
    status := statusValue r.status
    attempts := r.attempts
    max_attempts := r.max_attempts
    elapsed := elapsed r now
    finished := isTerminal r.status }

-- ── check_host_online (wol.py) ────────────────────────────────────────────

/-- Fate of the ping subprocess spawned by check_host_online: it exited with
some return code, the spawn itself raised, the wait_for timed out, or the
wait raised some other exception. -/
inductive PingOutcome where
  | exited (returncode : Int)
  | spawnError
  | waitTimeout
  | waitError
deriving DecidableEq, Repr

/-- check_host_online from wol.py.  Returns (result, probed): the boolean the
function returns, and whether a subprocess spawn was attempted.  An empty
address returns False before building the ping command; every exception path
(spawn failure, wait_for timeout, anything else) is caught and yields False;
otherwise the result is returncode == 0. -/
def check_host_online (ip_address : String) (timeout : Nat) (po : PingOutcome) :
    Bool × Bool :=
  if ip_address = "" then (false, false)
  else
    match po with
    | .exited rc => (decide (rc = 0), true)
    | .spawnError => (false, true)
    | .waitTimeout => (false, true)
    | .waitError => (false, true)

-- ── Manager state (WakeMonitorManager) ────────────────────────────────────

/-- One pending _evict task created by _schedule_eviction: the captured
machine id and generation, and the delay it sleeps before firing. -/
structure EvictionTask where
  machine_id : Int
  generation : Nat
  delay : Nat
deriving DecidableEq, Repr

structure WakeMonitorManager where
  records : List MonitorState       -- heap of every MonitorState object
  monitors : List (Int × Nat)       -- self._monitors : machine_id to heap index
  generation : Nat                  -- self._generation
  evictions : List EvictionTask     -- pending _evict tasks
deriving DecidableEq, Repr

/-- WakeMonitorManager._EVICT_AFTER. -/
def EVICT_AFTER : Nat := 300

/-- WakeMonitorManager._MAX_CONCURRENT. -/
def MAX_CONCURRENT : Nat := 50

/-- The timeout passed to check_host_online by _run. -/
def PROBE_TIMEOUT : Nat := 2

/-- WakeMonitorManager.__init__. -/
def initManager : WakeMonitorManager :=
  { records := [], monitors := [], generation := 0, evictions := [] }

-- ── dict primitives on the association list ───────────────────────────────

/-- self._monitors.get(machine_id). -/
def lookupMon : List (Int × Nat) → Int → Option Nat
  | [], _ => none
  | p :: rest, k => if p.1 = k then some p.2 else lookupMon rest k

/-- self._monitors.pop(machine_id, None). -/
def removeMon : List (Int × Nat) → Int → List (Int × Nat)
  | [], _ => []
  | p :: rest, k => if p.1 = k then removeMon rest k else p :: removeMon rest k

/-- self._monitors[machine_id] = rid (replace the binding or append). -/
def insertMon : List (Int × Nat) → Int → Nat → List (Int × Nat)
  | [], k, rid => [(k, rid)]
  | p :: rest, k, rid =>
      if p.1 = k then (k, rid) :: rest else p :: insertMon rest k rid

/-- Overwrite the heap cell rid (mutation of a shared MonitorState). -/
def setRec (sup : WakeMonitorManager) (rid : Nat) (r : MonitorState) :
    WakeMonitorManager :=
  { sup with records := sup.records.set rid r }

-- ── Supervisor operations ─────────────────────────────────────────────────

/-- Whether the record at heap index rid counts as active (not is_terminal)
in the capacity check of start(). -/
def isActiveRid (recs : List MonitorState) (rid : Nat) : Bool :=
  match recs.get? rid with
  | some r => !(isTerminal r.status)
  | none => false

/-- sum(1 for s in self._monitors.values() if not s.is_terminal). -/
def activeCount (sup : WakeMonitorManager) : Nat :=
  (sup.monitors.filter (fun p => isActiveRid sup.records p.2)).length

/-- WakeMonitorManager._cancel_existing.  If a record exists for the key:
when its task is still running, cancel the task and force status CANCELLED
with finished_at = now; in every case pop the map entry and return True.
Returns False when no record exists. -/
def cancelExisting (sup : WakeMonitorManager) (machine_id : Int) (now : Nat) :
    WakeMonitorManager × Bool :=
  match lookupMon sup.monitors machine_id with
  | none => (sup, false)
  | some rid =>
    let sup1 : WakeMonitorManager :=
      match sup.records.get? rid with
      | none => sup
      | some old =>
        match old.task with
        | none => sup
        | some t =>
          if t.pc = .taskDone then sup
          else
            setRec sup rid
              { old with
                status := .CANCELLED
                finished_at := some now
                task := some { t with cancelRequested := true } }
    ({ sup1 with monitors := removeMon sup1.monitors machine_id }, true)

/-- WakeMonitorManager._schedule_eviction: spawn an _evict task that sleeps
_EVICT_AFTER seconds and then deletes the entry for machine_id only if its
generation still matches. -/
def scheduleEviction (sup : WakeMonitorManager) (machine_id : Int)
    (generation : Nat) : WakeMonitorManager :=
  { sup with
    evictions :=
      sup.evictions ++
        [{ machine_id := machine_id, generation := generation,
           delay := EVICT_AFTER }] }

/-- WakeMonitorManager.start, the whole critical section under self._lock. -/
def start (sup : WakeMonitorManager) (machine_id : Int)
    (machine_name : String) (ip_address : String) (max_attempts : Nat)
    (interval : Nat) (now : Nat) : MonitorState × WakeMonitorManager :=
  let sup1 := (cancelExisting sup machine_id now).1
  if MAX_CONCURRENT ≤ activeCount sup1 then
    -- refusal: a fresh already-terminal record, never inserted, no task
    ({ machine_id := machine_id
       machine_name := machine_name
       ip_address := ip_address
       generation := 0
       status := .TIMEOUT
       attempts := 0
       max_attempts := 15
       interval := 10
       started_at := now
       finished_at := some now
       task := none }, sup1)
  else
    let gen := sup1.generation + 1
    let sup2 := { sup1 with generation := gen }
    if ip_address = "" then
      let st : MonitorState :=
        { machine_id := machine_id
          machine_name := machine_name
          ip_address := ""
          generation := gen
          status := .NO_IP
          attempts := 0
          max_attempts := 15
          interval := 10
          started_at := now
          finished_at := some now
          task := none }
      let rid := sup2.records.length
      let sup3 :=
        { sup2 with
          records := sup2.records ++ [st]
          monitors := insertMon sup2.monitors machine_id rid }
      (st, scheduleEviction sup3 machine_id gen)
    else
      let st : MonitorState :=
        { machine_id := machine_id
          machine_name := machine_name
          ip_address := ip_address
          generation := gen
          status := .PENDING
          attempts := 0
          max_attempts := max_attempts
          interval := interval
          started_at := now
          finished_at := none
          task := some { pc := .initialSleep, cancelRequested := false } }
      let rid := sup2.records.length
      (st,
       { sup2 with
         records := sup2.records ++ [st]
         monitors := insertMon sup2.monitors machine_id rid })

/-- WakeMonitorManager.get (named getMon here: the bare name get collides
with library names). -/
def getMon (sup : WakeMonitorManager) (machine_id : Int) (now : Nat) :
    Option RecordSnapshot :=
  match lookupMon sup.monitors machine_id with
  | none => none
  | some rid =>
    match sup.records.get? rid with
    | none => none
    | some r => some (to_dict r now)

/-- WakeMonitorManager.get_all. -/
def get_all (sup : WakeMonitorManager) (now : Nat) : List RecordSnapshot :=
  sup.monitors.filterMap (fun p =>
    match sup.records.get? p.2 with
    | some r => some (to_dict r now)
    | none => none)

/-- WakeMonitorManager.cancel: _cancel_existing under the lock. -/
def cancel (sup : WakeMonitorManager) (machine_id : Int) (now : Nat) :
    WakeMonitorManager × Bool :=
  cancelExisting sup machine_id now

/-- One iteration of the shutdown loop: cancel the task of the record at
heap index rid when it is still running (statuses are not touched). -/
def cancelTaskOfRid (recs : List MonitorState) (rid : Nat) :
    List MonitorState :=
  match recs.get? rid with
  | none => recs
  | some r =>
    match r.task with
    | none => recs
    | some t =>
      if t.pc = .taskDone then recs
      else recs.set rid { r with task := some { t with cancelRequested := true } }

/-- WakeMonitorManager.shutdown: cancel every running task referenced by the
map, then clear the map.  Pending _evict tasks are not cancelled. -/
def shutdown (sup : WakeMonitorManager) : WakeMonitorManager :=
  { sup with
    records := sup.monitors.foldl (fun recs p => cancelTaskOfRid recs p.2) sup.records
    monitors := [] }

-- ── The _run coroutine, one resume step per suspension segment ────────────

/-- Resume the _run task of the record at heap index rid.  If Task.cancel was
requested, the parked await raises CancelledError and the handler sets
CANCELLED and finished_at (no eviction is scheduled).  Otherwise: resuming
from a sleep runs the while-loop head (set CHECKING, attempts += 1, start the
probe; or, attempts exhausted, set TIMEOUT and schedule eviction); resuming
from the probe await branches on check_host_online applied to the ping
outcome po with timeout 2 (success: ONLINE, finished_at, eviction; failure:
park on the interval sleep). -/
def runResume (sup : WakeMonitorManager) (rid : Nat) (po : PingOutcome)
    (now : Nat) : WakeMonitorManager :=
  match sup.records.get? rid with
  | none => sup
  | some r =>
    match r.task with
    | none => sup
    | some t =>
      if t.pc = .taskDone then sup
      else if t.cancelRequested then
        setRec sup rid
          { r with
            status := .CANCELLED
            finished_at := some now
            task := some { t with pc := .taskDone } }
      else
        match t.pc with
        | .taskDone => sup
        | .probing =>
          if (check_host_online r.ip_address PROBE_TIMEOUT po).1 then
            scheduleEviction
              (setRec sup rid
                { r with
                  status := .ONLINE
                  finished_at := some now
                  task := some { t with pc := .taskDone } })
              r.machine_id r.generation
          else
            setRec sup rid { r with task := some { t with pc := .intervalSleep } }
        | _ =>
          -- woke from asyncio.sleep: run the while-loop head
          if r.attempts < r.max_attempts then
            setRec sup rid
              { r with
                status := .CHECKING
                attempts := r.attempts + 1
                task := some { t with pc := .probing } }
          else
            scheduleEviction
              (setRec sup rid
                { r with
                  status := .TIMEOUT
                  finished_at := some now
                  task := some { t with pc := .taskDone } })
              r.machine_id r.generation

/-- The except-Exception handler of _run: an unexpected error raised at a
suspension point of a live, not-cancelled task is logged, the record is
forced to TIMEOUT with finished_at = now, and eviction is scheduled.  A
cancelled task raises CancelledError instead, so the handler is unreachable
for it. -/
def runError (sup : WakeMonitorManager) (rid : Nat) (now : Nat) :
    WakeMonitorManager :=
  match sup.records.get? rid with
  | none => sup
  | some r =>
    match r.task with
    | none => sup
    | some t =>
      if t.pc = .taskDone then sup
      else if t.cancelRequested then sup
      else
        scheduleEviction
          (setRec sup rid
            { r with
              status := .TIMEOUT
              finished_at := some now
              task := some { t with pc := .taskDone } })
          r.machine_id r.generation

/-- Pending _evict task number i fires: after its delay it removes the map
entry for its machine id only when the generation still matches. -/
def evictAction (sup : WakeMonitorManager) (machine_id : Int)
    (generation : Nat) : WakeMonitorManager :=
  match lookupMon sup.monitors machine_id with
  | none => sup
  | some rid =>
    match sup.records.get? rid with
    | none => sup
    | some cur =>
      if cur.generation = generation then
        { sup with monitors := removeMon sup.monitors machine_id }
      else sup

/-- Fire the i-th pending eviction task (and retire it). -/
def evictFire (sup : WakeMonitorManager) (i : Nat) : WakeMonitorManager :=
  match sup.evictions.get? i with
  | none => sup
  | some e =>
    evictAction { sup with evictions := sup.evictions.eraseIdx i }
      e.machine_id e.generation

-- ── Interleaving semantics ────────────────────────────────────────────────

/-- One atomic step of the system: a supervisor call (their bodies run under
self._lock), one resume of a _run task with an arbitrary ping outcome, an
unexpected error inside a _run task, or a pending eviction firing. -/
inductive Step : WakeMonitorManager → WakeMonitorManager → Prop where
  | startStep (s : WakeMonitorManager) (k : Int) (nm ip : String)
      (ma iv now : Nat) : Step s (start s k nm ip ma iv now).2
  | cancelStep (s : WakeMonitorManager) (k : Int) (now : Nat) :
      Step s (cancel s k now).1
  | shutdownStep (s : WakeMonitorManager) : Step s (shutdown s)
  | resumeStep (s : WakeMonitorManager) (rid : Nat) (po : PingOutcome)
      (now : Nat) : Step s (runResume s rid po now)
  | errorStep (s : WakeMonitorManager) (rid : Nat) (now : Nat) :
      Step s (runError s rid now)
  | evictStep (s : WakeMonitorManager) (i : Nat) : Step s (evictFire s i)

/-- States reachable from a freshly constructed manager. -/
inductive Reachable : WakeMonitorManager → Prop where
  | init : Reachable initManager
  | step {s s' : WakeMonitorManager} : Reachable s → Step s s' → Reachable s'

-- ── Driver: run one _run task to completion without interference ──────────

/-- Repeatedly resume the task of record rid (fuel-bounded), feeding the ping
outcome orac n to the attempt numbered n.  Models the records own task
running to completion with no cancellation and no error. -/
def driveRun (rid : Nat) (orac : Nat → PingOutcome) (now : Nat) :
    Nat → WakeMonitorManager → WakeMonitorManager
  | 0, sup => sup
  | fuel + 1, sup =>
    match sup.records.get? rid with
    | none => sup
    | some r =>
      match r.task with
      | none => sup
      | some t =>
        if t.pc = .taskDone then sup
        else driveRun rid orac now fuel (runResume sup rid (orac r.attempts) now)

-- ── Concrete scenario states used by witnesses and counterexamples ────────

/-- Issue start calls for machine ids 0..n-1 (fresh keys, nonempty address). -/
def mkFull : Nat → WakeMonitorManager → WakeMonitorManager
  | 0, s => s
  | n + 1, s => mkFull n (start s (n : Int) "m" "10.0.0.1" 15 10 0).2

/-- Fifty pending monitors on keys 0..49. -/
def supFull : WakeMonitorManager := mkFull 50 initManager

/-- Forty-nine pending monitors on keys 0..48, a terminal NO_IP record for
key 100, then a fiftieth pending monitor on key 49: the map holds 51 entries
of which 50 are non-terminal, and key 100 holds a terminal record. -/
def supC10 : WakeMonitorManager :=
  let s1 := mkFull 49 initManager
  let s2 := (start s1 100 "m" "" 15 10 0).2
  (start s2 49 "m" "10.0.0.1" 15 10 0).2

/-- A single pending monitor for key 1 (used by several witnesses). -/
def supOne : WakeMonitorManager :=
  (start initManager 1 "m" "10.0.0.1" 3 0 0).2

/-- A manager holding one terminal NO_IP record for key 1. -/
def supNoIp : WakeMonitorManager :=
  (start initManager 1 "m" "" 15 10 0).2

/-- The pending record held by supOne. -/
def recOne : MonitorState := (start initManager 1 "m" "10.0.0.1" 3 0 0).1

/-- The terminal NO_IP record held by supNoIp. -/
def recNoIp : MonitorState := (start initManager 1 "m" "" 15 10 0).1

/-- Ping outcomes: attempts 1 and 2 fail (exit code 1), attempt 3 exits 0. -/
def oracFFT : Nat → PingOutcome :=
  fun n => if n = 3 then .exited 0 else .exited 1

/-- Ping outcomes: every attempt fails with exit code 1. -/
def oracFail : Nat → PingOutcome := fun _ => .exited 1

-- ── Auxiliary invariant for the interleaving semantics ────────────────────

/-- A record whose task is still running (present and not done) is either
non-terminal, or was force-cancelled by _cancel_existing (cancellation
requested and status CANCELLED).  This captures that _run only reaches a
terminal status when its task completes, and that the only external status
write is the forced CANCELLED. -/
def LiveTaskOk (r : MonitorState) : Prop :=
  ∀ t, r.task = some t → t.pc ≠ TaskPC.taskDone →
    isTerminal r.status = false ∨
      (t.cancelRequested = true ∧ r.status = MonitorStatus.CANCELLED)

/-- Every record in the heap satisfies LiveTaskOk. -/
def SupInv (sup : WakeMonitorManager) : Prop :=
  ∀ r ∈ sup.records, LiveTaskOk r

-- ── Helper lemmas on the map and heap primitives ──────────────────────────

lemma lookup_removeMon_self (m : List (Int × Nat)) (k : Int) :
    lookupMon (removeMon m k) k = none := by
  induction m with
  | nil => rfl
  | cons p rest ih =>
    by_cases h : p.1 = k
    · simpa [removeMon, h] using ih
    · simpa [removeMon, lookupMon, h] using ih

lemma lookup_removeMon_ne (m : List (Int × Nat)) (k k2 : Int) (h : k2 ≠ k) :
    lookupMon (removeMon m k) k2 = lookupMon m k2 := by
  induction m with
  | nil => rfl
  | cons p rest ih =>
    by_cases hp : p.1 = k
    · have hne : p.1 ≠ k2 := fun hc => h (hc.symm.trans hp)
      simp [removeMon, lookupMon, hp, hne, ih, h.symm]
    · by_cases hq : p.1 = k2
      · simp [removeMon, lookupMon, hp, hq, h]
      · simp [removeMon, lookupMon, hp, hq, ih, h]

lemma lookup_insertMon_self (m : List (Int × Nat)) (k : Int) (rid : Nat) :
    lookupMon (insertMon m k rid) k = some rid := by
  induction m with
  | nil => simp [insertMon, lookupMon]
  | cons p rest ih =>
    by_cases h : p.1 = k
    · simp [insertMon, h, lookupMon]
    · simp [insertMon, h, lookupMon, ih]

lemma get?_setRec_self (sup : WakeMonitorManager) (rid : Nat)
    (r : MonitorState) (h : rid < sup.records.length) :
    (setRec sup rid r).records.get? rid = some r := by
  simp [setRec, List.get?_set_eq_of_lt, h]

lemma get?_setRec_ne (sup : WakeMonitorManager) (rid j : Nat)
    (r : MonitorState) (h : rid ≠ j) :
    (setRec sup rid r).records.get? j = sup.records.get? j := by
  simp [setRec, List.get?_set_ne, h]

lemma setRec_setRec (sup : WakeMonitorManager) (rid : Nat)
    (a b : MonitorState) : setRec (setRec sup rid a) rid b = setRec sup rid b := by
  simp [setRec, List.set_set]

lemma length_of_get? {l : List MonitorState} {i : Nat} {r : MonitorState}
    (h : l.get? i = some r) : i < l.length := by
  rcases List.get?_eq_some.mp h with ⟨hlt, _⟩
  exact hlt

lemma setRec_length (sup : WakeMonitorManager) (rid : Nat) (r : MonitorState) :
    (setRec sup rid r).records.length = sup.records.length := by
  simp [setRec]

-- ── Frame lemmas for cancelExisting ───────────────────────────────────────

lemma cancelExisting_generation (sup : WakeMonitorManager) (k : Int)
    (now : Nat) : (cancelExisting sup k now).1.generation = sup.generation := by
  unfold cancelExisting
  split
  · rfl
  · split <;> try rfl
    split <;> try rfl
    split <;> rfl

lemma cancelExisting_evictions (sup : WakeMonitorManager) (k : Int)
    (now : Nat) : (cancelExisting sup k now).1.evictions = sup.evictions := by
  unfold cancelExisting
  split
  · rfl
  · split <;> try rfl
    split <;> try rfl
    split <;> rfl

lemma cancelExisting_records_length (sup : WakeMonitorManager) (k : Int)
    (now : Nat) :
    (cancelExisting sup k now).1.records.length = sup.records.length := by
  unfold cancelExisting
  split
  · rfl
  · split
    · rfl
    · split
      · rfl
      · split
        · rfl
        · simp [setRec]

lemma cancelExisting_bool (sup : WakeMonitorManager) (k : Int) (now : Nat) :
    (cancelExisting sup k now).2 = (lookupMon sup.monitors k).isSome := by
  unfold cancelExisting
  split <;> simp_all

lemma cancelExisting_lookup_self (sup : WakeMonitorManager) (k : Int)
    (now : Nat) : lookupMon (cancelExisting sup k now).1.monitors k = none := by
  unfold cancelExisting
  split
  · simp_all
  · simp only
    exact lookup_removeMon_self _ k

-- ── C1: generation-guarded eviction ───────────────────────────────────────

/-- C1: the eviction task scheduled for a record finishing with key K and
generation G sleeps the fixed window EVICT_AFTER = 300 seconds; when it
fires, it removes the map entry for K only if the record currently stored
for K has generation exactly G, and does nothing when the generation differs
or no entry exists — so a newer record replacing the finished one is never
deleted by a stale eviction task. -/
theorem spec_c1 :
    EVICT_AFTER = 300 ∧
    (∀ sup k g, scheduleEviction sup k g =
      { sup with evictions := sup.evictions ++
          [{ machine_id := k, generation := g, delay := EVICT_AFTER }] }) ∧
    (∀ sup k g rid r, lookupMon sup.monitors k = some rid →
      sup.records.get? rid = some r → r.generation = g →
      evictAction sup k g = { sup with monitors := removeMon sup.monitors k }) ∧
    (∀ (m : List (Int × Nat)) k, lookupMon (removeMon m k) k = none) ∧
    (∀ sup k g rid r, lookupMon sup.monitors k = some rid →
      sup.records.get? rid = some r → r.generation ≠ g →
      evictAction sup k g = sup) ∧
    (∀ sup k g, lookupMon sup.monitors k = none → evictAction sup k g = sup) := by
  refine ⟨rfl, fun sup k g => rfl, ?_, ?_, ?_, ?_⟩
  · intro sup k g rid r hl hr hg
    rw [List.get?_eq_getElem?] at hr
    simp [evictAction, hl, hr, hg]
  · intro m k
    exact lookup_removeMon_self m k
  · intro sup k g rid r hl hr hg
    rw [List.get?_eq_getElem?] at hr
    simp [evictAction, hl, hr, hg]
  · intro sup k g hl
    simp [evictAction, hl]

/-- Concrete instance for C1: in a manager holding an NO_IP record for key 1
with generation 1, the eviction for (1, 1) removes the entry, the stale
eviction for (1, 2) does nothing, and an eviction for an absent key does
nothing. -/
theorem spec_c1_witness :
    evictAction supNoIp 1 1 =
      { supNoIp with monitors := removeMon supNoIp.monitors 1 } ∧
    evictAction supNoIp 1 2 = supNoIp ∧
    evictAction supNoIp 5 1 = supNoIp := by
  refine ⟨?_, ?_, ?_⟩
  · exact spec_c1.2.2.1 supNoIp 1 1 0 (start initManager 1 "m" "" 15 10 0).1
      (by decide) (by decide) (by decide)
  · exact spec_c1.2.2.2.2.1 supNoIp 1 2 0 (start initManager 1 "m" "" 15 10 0).1
      (by decide) (by decide) (by decide)
  · exact spec_c1.2.2.2.2.2 supNoIp 5 1 (by decide)

-- ── C9: the reachability probe is total and fails closed ──────────────────

/-- C9: check_host_online always returns a boolean and never propagates an
internal failure: an empty address yields false without spawning a ping, a
process exit yields returncode == 0, and every failure path (spawn error,
wait timeout, other error) yields false. -/
theorem spec_c9 (ip : String) (timeout : Nat) (po : PingOutcome) :
    (ip = "" → check_host_online ip timeout po = (false, false)) ∧
    (∀ rc, po = .exited rc → ip ≠ "" →
      check_host_online ip timeout po = (decide (rc = 0), true)) ∧
    ((po = .spawnError ∨ po = .waitTimeout ∨ po = .waitError) →
      (check_host_online ip timeout po).1 = false) := by
  refine ⟨?_, ?_, ?_⟩
  · intro h
    simp [check_host_online, h]
  · intro rc hpo hip
    simp [check_host_online, hip, hpo]
  · intro hpo
    rcases hpo with h | h | h <;> subst h <;>
      · unfold check_host_online
        split <;> rfl

/-- Concrete instance for C9. -/
theorem spec_c9_witness :
    check_host_online "" 2 (.exited 0) = (false, false) ∧
    check_host_online "10.0.0.1" 2 (.exited 0) = (true, true) ∧
    (check_host_online "10.0.0.1" 2 .spawnError).1 = false := by
  refine ⟨(spec_c9 "" 2 (.exited 0)).1 rfl, ?_, ?_⟩
  · have h := (spec_c9 "10.0.0.1" 2 (.exited 0)).2.1 0 rfl (by decide)
    simpa using h
  · exact (spec_c9 "10.0.0.1" 2 .spawnError).2.2 (Or.inl rfl)

-- ── More frame lemmas ─────────────────────────────────────────────────────

lemma cancelExisting_none (sup : WakeMonitorManager) (k : Int) (now : Nat)
    (hl : lookupMon sup.monitors k = none) :
    cancelExisting sup k now = (sup, false) := by
  simp [cancelExisting, hl]

lemma get?_concat_self (l : List MonitorState) (a : MonitorState) :
    (l ++ [a]).get? l.length = some a := by
  simp

-- ── C2: cancellation and removal semantics ────────────────────────────────

/-- C2: when a record exists in the map for key K, both cancel(K) and the
cancel-existing step of start(K, ...) remove it from the map; if its task is
still running the record is forced to CANCELLED with finished_at = now and
the task receives a cancellation request, while an already terminal record
(task absent or done) is removed unmutated.  cancel(K) returns true exactly
when a record existed. -/
theorem spec_c2 (sup : WakeMonitorManager) (k : Int) (now : Nat) :
    (cancel sup k now).2 = (lookupMon sup.monitors k).isSome ∧
    lookupMon (cancel sup k now).1.monitors k = none ∧
    (∀ rid r t, lookupMon sup.monitors k = some rid →
      sup.records.get? rid = some r → r.task = some t → t.pc ≠ .taskDone →
      (cancel sup k now).1.records.get? rid =
        some { r with
                status := .CANCELLED, finished_at := some now,
                task := some { t with cancelRequested := true } }) ∧
    (∀ rid r, lookupMon sup.monitors k = some rid →
      sup.records.get? rid = some r →
      (r.task = none ∨ ∃ t, r.task = some t ∧ t.pc = .taskDone) →
      (cancel sup k now).1.records.get? rid = some r) ∧
    (∀ nm ip ma iv rid r, lookupMon sup.monitors k = some rid →
      sup.records.get? rid = some r →
      lookupMon (start sup k nm ip ma iv now).2.monitors k ≠ some rid) := by
  refine ⟨cancelExisting_bool sup k now, cancelExisting_lookup_self sup k now,
    ?_, ?_, ?_⟩
  · intro rid r t hl hr ht hpc
    have hlen := length_of_get? hr
    rw [List.get?_eq_getElem?] at hr
    have hrec : (cancel sup k now).1.records =
        sup.records.set rid
          { r with
             status := .CANCELLED, finished_at := some now,
             task := some { t with cancelRequested := true } } := by
      simp [cancel, cancelExisting, hl, hr, ht, hpc, setRec]
    rw [hrec]
    exact List.get?_set_eq_of_lt _ hlen
  · intro rid r hl hr hdone
    have hr0 := hr
    rw [List.get?_eq_getElem?] at hr
    rcases hdone with hnone | ⟨t, ht, hpc⟩
    · have hrec : (cancel sup k now).1.records = sup.records := by
        simp [cancel, cancelExisting, hl, hr, hnone]
      rw [hrec]
      exact hr0
    · have hrec : (cancel sup k now).1.records = sup.records := by
        simp [cancel, cancelExisting, hl, hr, ht, hpc]
      rw [hrec]
      exact hr0
  · intro nm ip ma iv rid r hl hr
    have hlen := length_of_get? hr
    by_cases hcap : MAX_CONCURRENT ≤ activeCount (cancelExisting sup k now).1
    · have hm : (start sup k nm ip ma iv now).2.monitors =
          (cancelExisting sup k now).1.monitors := by
        simp [start, hcap]
      rw [hm, cancelExisting_lookup_self]
      simp
    · by_cases hip : ip = ""
      · have hm : (start sup k nm ip ma iv now).2.monitors =
            insertMon (cancelExisting sup k now).1.monitors k
              ((cancelExisting sup k now).1.records.length) := by
          simp [start, hcap, hip, scheduleEviction]
        rw [hm, lookup_insertMon_self, cancelExisting_records_length]
        intro hc
        have := Option.some.inj hc
        omega
      · have hm : (start sup k nm ip ma iv now).2.monitors =
            insertMon (cancelExisting sup k now).1.monitors k
              ((cancelExisting sup k now).1.records.length) := by
          simp [start, hcap, hip]
        rw [hm, lookup_insertMon_self, cancelExisting_records_length]
        intro hc
        have := Option.some.inj hc
        omega

/-- Concrete instance for C2: cancelling the running monitor for key 1
returns true, removes the entry and forces the record to CANCELLED with a
cancellation request; cancelling the terminal NO_IP record removes it
unmutated; a replacing start() also removes the old map binding. -/
theorem spec_c2_witness :
    (cancel supOne 1 7).2 = true ∧
    lookupMon (cancel supOne 1 7).1.monitors 1 = none ∧
    (cancel supOne 1 7).1.records.get? 0 =
      some { recOne with
              status := .CANCELLED, finished_at := some 7,
              task := some { pc := .initialSleep, cancelRequested := true } } ∧
    (cancel supNoIp 1 7).1.records.get? 0 = some recNoIp ∧
    lookupMon (start supOne 1 "x" "10.0.0.2" 5 5 9).2.monitors 1 ≠ some 0 := by
  refine ⟨(spec_c2 supOne 1 7).1.trans (by decide),
    (spec_c2 supOne 1 7).2.1, ?_, ?_, ?_⟩
  · exact (spec_c2 supOne 1 7).2.2.1 0 recOne
      { pc := .initialSleep, cancelRequested := false } (by decide) rfl rfl
      (by decide)
  · exact (spec_c2 supNoIp 1 7).2.2.2.1 0 recNoIp (by decide) rfl
      (Or.inl (by decide))
  · exact (spec_c2 supOne 1 9).2.2.2.2 "x" "10.0.0.2" 5 5 0 recOne (by decide)
      rfl

-- ── C3: capacity refusal ──────────────────────────────────────────────────

/-- C3: when start() runs while the non-terminal record count (measured at
its capacity check) has reached the cap MAX_CONCURRENT = 50, it returns a
freshly built record with status TIMEOUT and finished_at = now, does not
insert it into the map, creates no task, and leaves the manager exactly as
the cancel-existing step left it; in particular a start() on a key with no
record while the cap is reached leaves the whole state, and hence the
non-terminal count, unchanged. -/
theorem spec_c3 (sup : WakeMonitorManager) (k : Int) (nm ip : String)
    (ma iv now : Nat) :
    MAX_CONCURRENT = 50 ∧
    (MAX_CONCURRENT ≤ activeCount (cancelExisting sup k now).1 →
      start sup k nm ip ma iv now =
        ({ machine_id := k, machine_name := nm, ip_address := ip,
           generation := 0, status := .TIMEOUT, attempts := 0,
           max_attempts := 15, interval := 10, started_at := now,
           finished_at := some now, task := none },
         (cancelExisting sup k now).1)) ∧
    (lookupMon sup.monitors k = none → MAX_CONCURRENT ≤ activeCount sup →
      (start sup k nm ip ma iv now).2 = sup ∧
      activeCount (start sup k nm ip ma iv now).2 = activeCount sup) := by
  refine ⟨rfl, ?_, ?_⟩
  · intro hcap
    simp [start, hcap]
  · intro hl hcap
    have hce := cancelExisting_none sup k now hl
    have hcap2 : MAX_CONCURRENT ≤ activeCount (cancelExisting sup k now).1 := by
      rw [hce]
      exact hcap
    have hs : (start sup k nm ip ma iv now).2 = (cancelExisting sup k now).1 := by
      simp [start, hcap2]
    rw [hs, hce]
    exact ⟨rfl, rfl⟩

set_option maxRecDepth 100000 in
set_option maxHeartbeats 1000000 in
/-- Concrete instance for C3: with 50 pending monitors on keys 0..49, a 51st
start() on the fresh key 100 returns the refusal record and leaves the
manager, and its active count of 50, unchanged. -/
theorem spec_c3_witness :
    activeCount supFull = 50 ∧
    start supFull 100 "m" "10.0.0.1" 15 10 10 =
      ({ machine_id := 100, machine_name := "m", ip_address := "10.0.0.1",
         generation := 0, status := .TIMEOUT, attempts := 0,
         max_attempts := 15, interval := 10, started_at := 10,
         finished_at := some 10, task := none }, supFull) ∧
    (start supFull 100 "m" "10.0.0.1" 15 10 10).2 = supFull := by
  refine ⟨by decide, ?_, ?_⟩
  · exact ((spec_c3 supFull 100 "m" "10.0.0.1" 15 10 10).2.1
      (by decide)).trans (by decide)
  · exact ((spec_c3 supFull 100 "m" "10.0.0.1" 15 10 10).2.2 (by decide)
      (by decide)).1

-- ── C7: empty address yields an immediate NO_IP record ────────────────────

/-- C7: start(K, label, empty address, ...) under the capacity cap returns a
record with status NO_IP, finished_at = now, attempts = 0, and generation
equal to the freshly incremented global counter; the record is inserted into
the map, its eviction is scheduled, and no polling task is created; its
snapshot shows finished = true and attempts = 0. -/
theorem spec_c7 (sup : WakeMonitorManager) (k : Int) (nm : String)
    (ma iv now : Nat)
    (hcap : activeCount (cancelExisting sup k now).1 < MAX_CONCURRENT) :
    (start sup k nm "" ma iv now).1 =
      { machine_id := k, machine_name := nm, ip_address := "",
        generation := sup.generation + 1, status := .NO_IP, attempts := 0,
        max_attempts := 15, interval := 10, started_at := now,
        finished_at := some now, task := none } ∧
    lookupMon (start sup k nm "" ma iv now).2.monitors k =
      some sup.records.length ∧
    (start sup k nm "" ma iv now).2.records.get? sup.records.length =
      some (start sup k nm "" ma iv now).1 ∧
    (start sup k nm "" ma iv now).2.generation = sup.generation + 1 ∧
    (start sup k nm "" ma iv now).2.evictions =
      sup.evictions ++
        [{ machine_id := k, generation := sup.generation + 1,
           delay := EVICT_AFTER }] ∧
    (to_dict (start sup k nm "" ma iv now).1 now).finished = true ∧
    (start sup k nm "" ma iv now).1.attempts = 0 ∧
    (start sup k nm "" ma iv now).1.task = none := by
  have hnle : ¬ MAX_CONCURRENT ≤ activeCount (cancelExisting sup k now).1 :=
    Nat.not_le.mpr hcap
  have hgen := cancelExisting_generation sup k now
  have hlen := cancelExisting_records_length sup k now
  have hev := cancelExisting_evictions sup k now
  have h1 : (start sup k nm "" ma iv now).1 =
      { machine_id := k, machine_name := nm, ip_address := "",
        generation := (cancelExisting sup k now).1.generation + 1,
        status := .NO_IP, attempts := 0, max_attempts := 15, interval := 10,
        started_at := now, finished_at := some now, task := none } := by
    simp [start, hnle]
  refine ⟨?_, ?_, ?_, ?_, ?_, ?_, ?_, ?_⟩
  · rw [h1, hgen]
  · have hm : (start sup k nm "" ma iv now).2.monitors =
        insertMon (cancelExisting sup k now).1.monitors k
          ((cancelExisting sup k now).1.records.length) := by
      simp [start, hnle, scheduleEviction]
    rw [hm, lookup_insertMon_self, hlen]
  · have hrec : (start sup k nm "" ma iv now).2.records =
        (cancelExisting sup k now).1.records ++
          [(start sup k nm "" ma iv now).1] := by
      rw [h1]
      simp [start, hnle, scheduleEviction, hgen]
    rw [hrec, ← hlen]
    exact get?_concat_self _ _
  · have : (start sup k nm "" ma iv now).2.generation =
        (cancelExisting sup k now).1.generation + 1 := by
      simp [start, hnle, scheduleEviction]
    rw [this, hgen]
  · have : (start sup k nm "" ma iv now).2.evictions =
        (cancelExisting sup k now).1.evictions ++
          [{ machine_id := k,
             generation := (cancelExisting sup k now).1.generation + 1,
             delay := EVICT_AFTER }] := by
      simp [start, hnle, scheduleEviction]
    rw [this, hgen, hev]
  · rw [h1]
    rfl
  · rw [h1]
  · rw [h1]

/-- Concrete instance for C7: starting key 1 with an empty address on a
fresh manager yields the NO_IP record with generation 1, inserts it, and
schedules its eviction with the 300 second window. -/
theorem spec_c7_witness :
    (start initManager 1 "m" "" 15 10 0).1 =
      { machine_id := 1, machine_name := "m", ip_address := "",
        generation := 1, status := .NO_IP, attempts := 0, max_attempts := 15,
        interval := 10, started_at := 0, finished_at := some 0,
        task := none } ∧
    lookupMon (start initManager 1 "m" "" 15 10 0).2.monitors 1 = some 0 ∧
    (start initManager 1 "m" "" 15 10 0).2.evictions =
      [{ machine_id := 1, generation := 1, delay := 300 }] ∧
    (to_dict (start initManager 1 "m" "" 15 10 0).1 0).finished = true := by
  have h := spec_c7 initManager 1 "m" 15 10 0 (by decide)
  exact ⟨h.1, h.2.1, h.2.2.2.2.1.trans (by decide), h.2.2.2.2.2.1⟩

-- ── C10: a refused start() still runs the cancel-existing step ────────────

/-- C10: when K holds a record and start(K, ...) is refused by the capacity
check, the cancel-existing step has still run first, so the resulting state
is exactly the state cancelExisting produced: the map no longer holds K and
get(K) returns none, even though the returned refusal record was never
inserted; the refusal record carries generation 0 and the global generation
counter is unchanged. -/
theorem spec_c10 (sup : WakeMonitorManager) (k : Int) (nm ip : String)
    (ma iv now rid : Nat) (hrid : lookupMon sup.monitors k = some rid)
    (hcap : MAX_CONCURRENT ≤ activeCount (cancelExisting sup k now).1) :
    (start sup k nm ip ma iv now).2 = (cancelExisting sup k now).1 ∧
    lookupMon (start sup k nm ip ma iv now).2.monitors k = none ∧
    getMon (start sup k nm ip ma iv now).2 k now = none ∧
    (start sup k nm ip ma iv now).1.generation = 0 ∧
    (start sup k nm ip ma iv now).2.generation = sup.generation := by
  have h2 : (start sup k nm ip ma iv now).2 = (cancelExisting sup k now).1 := by
    simp [start, hcap]
  have hlk : lookupMon (start sup k nm ip ma iv now).2.monitors k = none := by
    rw [h2]
    exact cancelExisting_lookup_self sup k now
  refine ⟨h2, hlk, ?_, ?_, ?_⟩
  · unfold getMon
    rw [hlk]
  · simp [start, hcap]
  · rw [h2]
    exact cancelExisting_generation sup k now

set_option maxRecDepth 100000 in
set_option maxHeartbeats 1000000 in
/-- Concrete instance for C10: in supC10 key 100 holds a terminal record at
heap index 49 while 50 other keys are non-terminal; the refused
start(100, ...) removes the record for key 100 (get returns none), returns
generation 0, and leaves the counter at 51. -/
theorem spec_c10_witness :
    lookupMon supC10.monitors 100 = some 49 ∧
    (start supC10 100 "m" "10.0.0.1" 15 10 7).2 =
      (cancelExisting supC10 100 7).1 ∧
    getMon (start supC10 100 "m" "10.0.0.1" 15 10 7).2 100 7 = none ∧
    (start supC10 100 "m" "10.0.0.1" 15 10 7).1.generation = 0 ∧
    (start supC10 100 "m" "10.0.0.1" 15 10 7).2.generation = 51 := by
  have h := spec_c10 supC10 100 "m" "10.0.0.1" 15 10 7 49 (by decide)
    (by decide)
  exact ⟨by decide, h.1, h.2.2.1, h.2.2.2.1,
    h.2.2.2.2.trans (by decide)⟩

-- ── C6: cancellation and error handling inside the poll loop ──────────────

/-- C6: a _run task that receives a cancellation request sets its record to
CANCELLED with finished_at = now and stops without scheduling an eviction; a
_run task hit by an unexpected error sets TIMEOUT with finished_at = now and
schedules eviction (the error is only logged: runError is total and returns
a manager state instead of propagating); and whenever the task finishes
(its pc becomes taskDone) the record is left in a terminal status. -/
theorem spec_c6 (sup : WakeMonitorManager) (rid : Nat) (r : MonitorState)
    (t : TaskState) (po : PingOutcome) (now : Nat)
    (hr : sup.records.get? rid = some r) (ht : r.task = some t)
    (hlive : t.pc ≠ .taskDone) :
    (t.cancelRequested = true →
      runResume sup rid po now =
        setRec sup rid
          { r with
             status := .CANCELLED, finished_at := some now,
             task := some { t with pc := .taskDone } } ∧
      (runResume sup rid po now).evictions = sup.evictions) ∧
    (t.cancelRequested = false →
      runError sup rid now =
        scheduleEviction
          (setRec sup rid
            { r with
               status := .TIMEOUT, finished_at := some now,
               task := some { t with pc := .taskDone } })
          r.machine_id r.generation ∧
      (runError sup rid now).evictions =
        sup.evictions ++
          [{ machine_id := r.machine_id, generation := r.generation,
             delay := EVICT_AFTER }] ∧
      (∀ r2, (runError sup rid now).records.get? rid = some r2 →
        isTerminal r2.status = true)) ∧
    (∀ r2 t2, (runResume sup rid po now).records.get? rid = some r2 →
      r2.task = some t2 → t2.pc = .taskDone → isTerminal r2.status = true) := by
  have hlen := length_of_get? hr
  have hr' := hr
  rw [List.get?_eq_getElem?] at hr'
  refine ⟨?_, ?_, ?_⟩
  · intro hcr
    have heq : runResume sup rid po now =
        setRec sup rid
          { r with
             status := .CANCELLED, finished_at := some now,
             task := some { t with pc := .taskDone } } := by
      simp [runResume, hr', ht, hlive, hcr]
    exact ⟨heq, by rw [heq]; rfl⟩
  · intro hcr
    have heq : runError sup rid now =
        scheduleEviction
          (setRec sup rid
            { r with
               status := .TIMEOUT, finished_at := some now,
               task := some { t with pc := .taskDone } })
          r.machine_id r.generation := by
      simp [runError, hr', ht, hlive, hcr]
    refine ⟨heq, by rw [heq]; rfl, ?_⟩
    intro r2 h2
    rw [heq] at h2
    have hrec : (scheduleEviction
        (setRec sup rid
          { r with
             status := .TIMEOUT, finished_at := some now,
             task := some { t with pc := .taskDone } })
        r.machine_id r.generation).records =
        sup.records.set rid
          { r with
             status := .TIMEOUT, finished_at := some now,
             task := some { t with pc := .taskDone } } := rfl
    rw [hrec, List.get?_set_eq_of_lt _ hlen] at h2
    cases Option.some.inj h2
    rfl
  · intro r2 t2 h2 ht2 hpc2
    by_cases hcr : t.cancelRequested = true
    · have heq : runResume sup rid po now =
          setRec sup rid
            { r with
               status := .CANCELLED, finished_at := some now,
               task := some { t with pc := .taskDone } } := by
        simp [runResume, hr', ht, hlive, hcr]
      rw [heq, setRec, List.get?_set_eq_of_lt _ hlen] at h2
      cases Option.some.inj h2
      rfl
    · have hcr' : t.cancelRequested = false := by
        simpa using hcr
      cases hpcv : t.pc with
      | taskDone => exact absurd hpcv hlive
      | probing =>
        by_cases hp : (check_host_online r.ip_address PROBE_TIMEOUT po).1 = true
        · have heq : runResume sup rid po now =
              scheduleEviction
                (setRec sup rid
                  { r with
                     status := .ONLINE, finished_at := some now,
                     task := some { t with pc := .taskDone } })
                r.machine_id r.generation := by
            simp [runResume, hr', ht, hlive, hcr', hpcv, hp]
          rw [heq] at h2
          have hrec : (scheduleEviction
              (setRec sup rid
                { r with
                   status := .ONLINE, finished_at := some now,
                   task := some { t with pc := .taskDone } })
              r.machine_id r.generation).records =
              sup.records.set rid
                { r with
                   status := .ONLINE, finished_at := some now,
                   task := some { t with pc := .taskDone } } := rfl
          rw [hrec, List.get?_set_eq_of_lt _ hlen] at h2
          cases Option.some.inj h2
          rfl
        · have hp' : (check_host_online r.ip_address PROBE_TIMEOUT po).1 = false := by
            simpa using hp
          have heq : runResume sup rid po now =
              setRec sup rid
                { r with task := some { t with pc := .intervalSleep } } := by
            simp [runResume, hr', ht, hlive, hcr', hpcv, hp']
          rw [heq, setRec, List.get?_set_eq_of_lt _ hlen] at h2
          cases Option.some.inj h2
          cases Option.some.inj ht2
          simp at hpc2
      | initialSleep =>
        by_cases hat : r.attempts < r.max_attempts
        · have heq : runResume sup rid po now =
              setRec sup rid
                { r with
                   status := .CHECKING, attempts := r.attempts + 1,
                   task := some { t with pc := .probing } } := by
            simp [runResume, hr', ht, hlive, hcr', hpcv, hat]
          rw [heq, setRec, List.get?_set_eq_of_lt _ hlen] at h2
          cases Option.some.inj h2
          cases Option.some.inj ht2
          simp at hpc2
        · have heq : runResume sup rid po now =
              scheduleEviction
                (setRec sup rid
                  { r with
                     status := .TIMEOUT, finished_at := some now,
                     task := some { t with pc := .taskDone } })
                r.machine_id r.generation := by
            simp [runResume, hr', ht, hlive, hcr', hpcv, hat]
          rw [heq] at h2
          have hrec : (scheduleEviction
              (setRec sup rid
                { r with
                   status := .TIMEOUT, finished_at := some now,
                   task := some { t with pc := .taskDone } })
              r.machine_id r.generation).records =
              sup.records.set rid
                { r with
                   status := .TIMEOUT, finished_at := some now,
                   task := some { t with pc := .taskDone } } := rfl
          rw [hrec, List.get?_set_eq_of_lt _ hlen] at h2
          cases Option.some.inj h2
          rfl
      | intervalSleep =>
        by_cases hat : r.attempts < r.max_attempts
        · have heq : runResume sup rid po now =
              setRec sup rid
                { r with
                   status := .CHECKING, attempts := r.attempts + 1,
                   task := some { t with pc := .probing } } := by
            simp [runResume, hr', ht, hlive, hcr', hpcv, hat]
          rw [heq, setRec, List.get?_set_eq_of_lt _ hlen] at h2
          cases Option.some.inj h2
          cases Option.some.inj ht2
          simp at hpc2
        · have heq : runResume sup rid po now =
              scheduleEviction
                (setRec sup rid
                  { r with
                     status := .TIMEOUT, finished_at := some now,
                     task := some { t with pc := .taskDone } })
                r.machine_id r.generation := by
            simp [runResume, hr', ht, hlive, hcr', hpcv, hat]
          rw [heq] at h2
          have hrec : (scheduleEviction
              (setRec sup rid
                { r with
                   status := .TIMEOUT, finished_at := some now,
                   task := some { t with pc := .taskDone } })
              r.machine_id r.generation).records =
              sup.records.set rid
                { r with
                   status := .TIMEOUT, finished_at := some now,
                   task := some { t with pc := .taskDone } } := rfl
          rw [hrec, List.get?_set_eq_of_lt _ hlen] at h2
          cases Option.some.inj h2
          rfl

/-- Concrete instance for C6: in a manager whose only task was cancelled,
resuming the task yields CANCELLED with no eviction scheduled; in the
untouched manager an unexpected error yields TIMEOUT with an eviction. -/
theorem spec_c6_witness :
    runResume (cancel supOne 1 7).1 0 (.exited 0) 8 =
      setRec (cancel supOne 1 7).1 0
        { recOne with
           status := .CANCELLED, finished_at := some 8,
           task := some { pc := .taskDone, cancelRequested := true } } ∧
    (runResume (cancel supOne 1 7).1 0 (.exited 0) 8).evictions = [] ∧
    runError supOne 0 9 =
      scheduleEviction
        (setRec supOne 0
          { recOne with
             status := .TIMEOUT, finished_at := some 9,
             task := some { pc := .taskDone, cancelRequested := false } })
        1 1 ∧
    (runError supOne 0 9).evictions =
      [{ machine_id := 1, generation := 1, delay := 300 }] := by
  have h1 := spec_c6 (cancel supOne 1 7).1 0
    { recOne with
       status := .CANCELLED, finished_at := some 7,
       task := some { pc := .initialSleep, cancelRequested := true } }
    { pc := .initialSleep, cancelRequested := true } (.exited 0) 8
    (by decide) rfl (by decide)
  have h2 := spec_c6 supOne 0 recOne
    { pc := .initialSleep, cancelRequested := false } (.exited 0) 9
    (by decide) rfl (by decide)
  refine ⟨(h1.1 rfl).1, ((h1.1 rfl).2).trans (by decide), ?_, ?_⟩
  · exact (h2.2.1 rfl).1
  · exact ((h2.2.1 rfl).2.1).trans (by decide)

-- ── Driver lemmas for the poll loop ───────────────────────────────────────

lemma driveRun_zero (rid : Nat) (orac : Nat → PingOutcome) (now : Nat)
    (sup : WakeMonitorManager) : driveRun rid orac now 0 sup = sup := rfl

lemma driveRun_of_none (rid : Nat) (orac : Nat → PingOutcome) (now : Nat)
    (sup : WakeMonitorManager) (hget : sup.records.get? rid = none)
    (fuel : Nat) : driveRun rid orac now fuel sup = sup := by
  cases fuel with
  | zero => rfl
  | succ fuel => simp only [driveRun, hget]

lemma driveRun_of_noTask (rid : Nat) (orac : Nat → PingOutcome) (now : Nat)
    (sup : WakeMonitorManager) (r : MonitorState)
    (hget : sup.records.get? rid = some r) (ht : r.task = none)
    (fuel : Nat) : driveRun rid orac now fuel sup = sup := by
  cases fuel with
  | zero => rfl
  | succ fuel => simp only [driveRun, hget, ht]

lemma driveRun_of_done (rid : Nat) (orac : Nat → PingOutcome) (now : Nat)
    (sup : WakeMonitorManager) (r : MonitorState) (t : TaskState)
    (hget : sup.records.get? rid = some r) (ht : r.task = some t)
    (hpc : t.pc = .taskDone) (fuel : Nat) :
    driveRun rid orac now fuel sup = sup := by
  cases fuel with
  | zero => rfl
  | succ fuel => simp only [driveRun, hget, ht, hpc, if_pos]

lemma driveRun_succ (rid : Nat) (orac : Nat → PingOutcome) (now : Nat)
    (sup : WakeMonitorManager) (r : MonitorState) (t : TaskState)
    (fuel : Nat) (hget : sup.records.get? rid = some r)
    (ht : r.task = some t) (hpc : t.pc ≠ .taskDone) :
    driveRun rid orac now (fuel + 1) sup =
      driveRun rid orac now fuel (runResume sup rid (orac r.attempts) now) := by
  simp only [driveRun, hget, ht]
  rw [if_neg hpc]

lemma driveRun_add (rid : Nat) (orac : Nat → PingOutcome) (now : Nat) :
    ∀ (n m : Nat) (sup : WakeMonitorManager),
    driveRun rid orac now (m + n) sup =
      driveRun rid orac now m (driveRun rid orac now n sup) := by
  intro n
  induction n with
  | zero => intro m sup; rfl
  | succ n ih =>
    intro m sup
    have harith : m + (n + 1) = (m + n) + 1 := by omega
    rw [harith]
    rcases hget : sup.records.get? rid with _ | r
    · simp only [driveRun_of_none rid orac now sup hget]
    · rcases ht : r.task with _ | t
      · simp only [driveRun_of_noTask rid orac now sup r hget ht]
      · by_cases hpc : t.pc = .taskDone
        · simp only [driveRun_of_done rid orac now sup r t hget ht hpc]
        · rw [driveRun_succ rid orac now sup r t (m + n) hget ht hpc,
            driveRun_succ rid orac now sup r t n hget ht hpc, ih]

-- ── Shape lemmas for one resume of the poll loop ──────────────────────────

lemma runResume_loopHead (sup : WakeMonitorManager) (rid : Nat)
    (r : MonitorState) (tpc : TaskPC) (po : PingOutcome) (now : Nat)
    (hr : sup.records[rid]? = some r)
    (ht : r.task = some { pc := tpc, cancelRequested := false })
    (hpc : tpc = .initialSleep ∨ tpc = .intervalSleep) :
    runResume sup rid po now =
      if r.attempts < r.max_attempts then
        setRec sup rid
          { r with
             status := .CHECKING, attempts := r.attempts + 1,
             task := some { pc := .probing, cancelRequested := false } }
      else
        scheduleEviction
          (setRec sup rid
            { r with
               status := .TIMEOUT, finished_at := some now,
               task := some { pc := .taskDone, cancelRequested := false } })
          r.machine_id r.generation := by
  rcases hpc with h | h <;> subst h <;> simp [runResume, hr, ht]

lemma runResume_probe (sup : WakeMonitorManager) (rid : Nat)
    (r : MonitorState) (po : PingOutcome) (now : Nat)
    (hr : sup.records[rid]? = some r)
    (ht : r.task = some { pc := .probing, cancelRequested := false }) :
    runResume sup rid po now =
      if (check_host_online r.ip_address PROBE_TIMEOUT po).1 then
        scheduleEviction
          (setRec sup rid
            { r with
               status := .ONLINE, finished_at := some now,
               task := some { pc := .taskDone, cancelRequested := false } })
          r.machine_id r.generation
      else
        setRec sup rid
          { r with task := some { pc := .intervalSleep, cancelRequested := false } } := by
  simp [runResume, hr, ht]

-- ── The poll loop exhausts its attempts: TIMEOUT ──────────────────────────

lemma drive_loop_timeout (rid : Nat) (orac : Nat → PingOutcome) (now : Nat) :
    ∀ (k : Nat) (sup : WakeMonitorManager) (r : MonitorState) (tpc : TaskPC),
    sup.records.get? rid = some r →
    r.task = some { pc := tpc, cancelRequested := false } →
    (tpc = .initialSleep ∨ tpc = .intervalSleep) →
    r.max_attempts = r.attempts + k →
    (∀ j, r.attempts < j → j ≤ r.max_attempts →
      (check_host_online r.ip_address PROBE_TIMEOUT (orac j)).1 = false) →
    driveRun rid orac now (2 * k + 2) sup =
      scheduleEviction
        (setRec sup rid
          { r with
             status := .TIMEOUT, attempts := r.max_attempts,
             finished_at := some now,
             task := some { pc := .taskDone, cancelRequested := false } })
        r.machine_id r.generation := by
  intro k
  induction k with
  | zero =>
    intro sup r tpc hr ht hpc hk hfail
    have hlen := length_of_get? hr
    have hr' := hr
    rw [List.get?_eq_getElem?] at hr'
    have hlive : ({ pc := tpc, cancelRequested := false } : TaskState).pc ≠
        .taskDone := by
      rcases hpc with h | h <;> simp [h]
    have hnat : ¬ r.attempts < r.max_attempts := by omega
    have h2 : 2 * 0 + 2 = 1 + 1 := by norm_num
    rw [h2, driveRun_succ rid orac now sup r _ 1 hr ht hlive,
      runResume_loopHead sup rid r tpc (orac r.attempts) now hr' ht hpc,
      if_neg hnat]
    have hgetTO : (scheduleEviction
        (setRec sup rid
          { r with
             status := .TIMEOUT, finished_at := some now,
             task := some { pc := .taskDone, cancelRequested := false } })
        r.machine_id r.generation).records.get? rid =
        some { r with
                status := .TIMEOUT, finished_at := some now,
                task := some { pc := .taskDone, cancelRequested := false } } := by
      show (sup.records.set rid _).get? rid = _
      exact List.get?_set_eq_of_lt _ hlen
    rw [driveRun_of_done rid orac now _ _ _ hgetTO rfl rfl 1]
    have hma : r.attempts = r.max_attempts := by omega
    rw [← hma]
  | succ k ih =>
    intro sup r tpc hr ht hpc hk hfail
    have hlen := length_of_get? hr
    have hr' := hr
    rw [List.get?_eq_getElem?] at hr'
    have hlive : ({ pc := tpc, cancelRequested := false } : TaskState).pc ≠
        .taskDone := by
      rcases hpc with h | h <;> simp [h]
    have hat : r.attempts < r.max_attempts := by omega
    have h2 : 2 * (k + 1) + 2 = ((2 * k + 2) + 1) + 1 := by ring
    rw [h2, driveRun_succ rid orac now sup r _ ((2 * k + 2) + 1) hr ht hlive,
      runResume_loopHead sup rid r tpc (orac r.attempts) now hr' ht hpc,
      if_pos hat]
    have hget1 : (setRec sup rid
        { r with
           status := .CHECKING, attempts := r.attempts + 1,
           task := some { pc := .probing, cancelRequested := false } }).records.get? rid =
        some { r with
                status := .CHECKING, attempts := r.attempts + 1,
                task := some { pc := .probing, cancelRequested := false } } :=
      get?_setRec_self sup rid _ hlen
    have hget1' := hget1
    rw [List.get?_eq_getElem?] at hget1'
    rw [driveRun_succ rid orac now _ _ _ (2 * k + 2) hget1 rfl (by simp),
      runResume_probe _ rid _ _ now hget1' rfl]
    have hfail1 : (check_host_online r.ip_address PROBE_TIMEOUT
        (orac (r.attempts + 1))).1 = false :=
      hfail (r.attempts + 1) (by omega) (by omega)
    rw [if_neg (by simpa using hfail1), setRec_setRec]
    show driveRun rid orac now (2 * k + 2)
        (setRec sup rid
          { r with
             status := .CHECKING, attempts := r.attempts + 1,
             task := some { pc := .intervalSleep, cancelRequested := false } }) = _
    have hget2 : (setRec sup rid
        { r with
           status := .CHECKING, attempts := r.attempts + 1,
           task := some { pc := .intervalSleep, cancelRequested := false } }).records.get? rid =
        some { r with
                status := .CHECKING, attempts := r.attempts + 1,
                task := some { pc := .intervalSleep, cancelRequested := false } } :=
      get?_setRec_self sup rid _ hlen
    have ihres := ih (setRec sup rid
        { r with
           status := .CHECKING, attempts := r.attempts + 1,
           task := some { pc := .intervalSleep, cancelRequested := false } })
      { r with
         status := .CHECKING, attempts := r.attempts + 1,
         task := some { pc := .intervalSleep, cancelRequested := false } }
      .intervalSleep hget2 rfl (Or.inr rfl)
      (show r.max_attempts = (r.attempts + 1) + k from by omega)
      (fun j h1 h2 => hfail j (by exact lt_of_le_of_lt (Nat.le_succ _) h1) h2)
    rw [ihres, setRec_setRec]

-- ── The poll loop sees a successful probe: ONLINE ─────────────────────────

lemma drive_loop_online (rid : Nat) (orac : Nat → PingOutcome) (now : Nat) :
    ∀ (d : Nat) (sup : WakeMonitorManager) (r : MonitorState) (tpc : TaskPC)
      (i : Nat),
    sup.records.get? rid = some r →
    r.task = some { pc := tpc, cancelRequested := false } →
    (tpc = .initialSleep ∨ tpc = .intervalSleep) →
    i = r.attempts + d + 1 →
    i ≤ r.max_attempts →
    (check_host_online r.ip_address PROBE_TIMEOUT (orac i)).1 = true →
    (∀ j, r.attempts < j → j < i →
      (check_host_online r.ip_address PROBE_TIMEOUT (orac j)).1 = false) →
    driveRun rid orac now (2 * d + 2) sup =
      scheduleEviction
        (setRec sup rid
          { r with
             status := .ONLINE, attempts := i, finished_at := some now,
             task := some { pc := .taskDone, cancelRequested := false } })
        r.machine_id r.generation := by
  intro d
  induction d with
  | zero =>
    intro sup r tpc i hr ht hpc hi hile hsucc hfail
    have hlen := length_of_get? hr
    have hr' := hr
    rw [List.get?_eq_getElem?] at hr'
    have hlive : ({ pc := tpc, cancelRequested := false } : TaskState).pc ≠
        .taskDone := by
      rcases hpc with h | h <;> simp [h]
    have hat : r.attempts < r.max_attempts := by omega
    have h2 : 2 * 0 + 2 = 1 + 1 := by norm_num
    rw [h2, driveRun_succ rid orac now sup r _ 1 hr ht hlive,
      runResume_loopHead sup rid r tpc (orac r.attempts) now hr' ht hpc,
      if_pos hat]
    have hget1 : (setRec sup rid
        { r with
           status := .CHECKING, attempts := r.attempts + 1,
           task := some { pc := .probing, cancelRequested := false } }).records.get? rid =
        some { r with
                status := .CHECKING, attempts := r.attempts + 1,
                task := some { pc := .probing, cancelRequested := false } } :=
      get?_setRec_self sup rid _ hlen
    have hget1' := hget1
    rw [List.get?_eq_getElem?] at hget1'
    rw [driveRun_succ rid orac now _ _ _ 0 hget1 rfl (by simp),
      runResume_probe _ rid _ _ now hget1' rfl]
    have hsucc1 : (check_host_online r.ip_address PROBE_TIMEOUT
        (orac (r.attempts + 1))).1 = true := by
      have : i = r.attempts + 1 := by omega
      rw [← this]
      exact hsucc
    rw [if_pos (by simpa using hsucc1), setRec_setRec, driveRun_zero]
    have hia : r.attempts + 1 = i := by omega
    rw [hia]
  | succ d ih =>
    intro sup r tpc i hr ht hpc hi hile hsucc hfail
    have hlen := length_of_get? hr
    have hr' := hr
    rw [List.get?_eq_getElem?] at hr'
    have hlive : ({ pc := tpc, cancelRequested := false } : TaskState).pc ≠
        .taskDone := by
      rcases hpc with h | h <;> simp [h]
    have hat : r.attempts < r.max_attempts := by omega
    have h2 : 2 * (d + 1) + 2 = ((2 * d + 2) + 1) + 1 := by ring
    rw [h2, driveRun_succ rid orac now sup r _ ((2 * d + 2) + 1) hr ht hlive,
      runResume_loopHead sup rid r tpc (orac r.attempts) now hr' ht hpc,
      if_pos hat]
    have hget1 : (setRec sup rid
        { r with
           status := .CHECKING, attempts := r.attempts + 1,
           task := some { pc := .probing, cancelRequested := false } }).records.get? rid =
        some { r with
                status := .CHECKING, attempts := r.attempts + 1,
                task := some { pc := .probing, cancelRequested := false } } :=
      get?_setRec_self sup rid _ hlen
    have hget1' := hget1
    rw [List.get?_eq_getElem?] at hget1'
    rw [driveRun_succ rid orac now _ _ _ (2 * d + 2) hget1 rfl (by simp),
      runResume_probe _ rid _ _ now hget1' rfl]
    have hfail1 : (check_host_online r.ip_address PROBE_TIMEOUT
        (orac (r.attempts + 1))).1 = false :=
      hfail (r.attempts + 1) (by omega) (by omega)
    rw [if_neg (by simpa using hfail1), setRec_setRec]
    show driveRun rid orac now (2 * d + 2)
        (setRec sup rid
          { r with
             status := .CHECKING, attempts := r.attempts + 1,
             task := some { pc := .intervalSleep, cancelRequested := false } }) = _
    have hget2 : (setRec sup rid
        { r with
           status := .CHECKING, attempts := r.attempts + 1,
           task := some { pc := .intervalSleep, cancelRequested := false } }).records.get? rid =
        some { r with
                status := .CHECKING, attempts := r.attempts + 1,
                task := some { pc := .intervalSleep, cancelRequested := false } } :=
      get?_setRec_self sup rid _ hlen
    have ihres := ih (setRec sup rid
        { r with
           status := .CHECKING, attempts := r.attempts + 1,
           task := some { pc := .intervalSleep, cancelRequested := false } })
      { r with
         status := .CHECKING, attempts := r.attempts + 1,
         task := some { pc := .intervalSleep, cancelRequested := false } }
      .intervalSleep i hget2 rfl (Or.inr rfl)
      (show i = (r.attempts + 1) + d + 1 from by omega) hile hsucc
      (fun j h1 h2 => hfail j (by exact lt_of_le_of_lt (Nat.le_succ _) h1) h2)
    rw [ihres, setRec_setRec]

-- ── C5: normal poll-loop runs ─────────────────────────────────────────────

/-- C5: a poll loop that runs to completion without cancellation or error
iterates while attempts < maxAttempts; each iteration sets CHECKING,
increments attempts by one and probes with check_host_online at timeout
PROBE_TIMEOUT = 2; if the probe first succeeds at attempt i the record ends
ONLINE with attempts = i, finished_at set and eviction scheduled; if every
attempt fails the record ends TIMEOUT with attempts = maxAttempts,
finished_at set and eviction scheduled. -/
theorem spec_c5 (sup : WakeMonitorManager) (rid : Nat) (r : MonitorState)
    (orac : Nat → PingOutcome) (now : Nat)
    (hr : sup.records.get? rid = some r)
    (ht : r.task = some { pc := .initialSleep, cancelRequested := false })
    (ha : r.attempts = 0) :
    PROBE_TIMEOUT = 2 ∧
    (∀ po, r.attempts < r.max_attempts →
      runResume sup rid po now =
        setRec sup rid
          { r with
             status := .CHECKING, attempts := r.attempts + 1,
             task := some { pc := .probing, cancelRequested := false } }) ∧
    (∀ i, 1 ≤ i → i ≤ r.max_attempts →
      (check_host_online r.ip_address PROBE_TIMEOUT (orac i)).1 = true →
      (∀ j, 1 ≤ j → j < i →
        (check_host_online r.ip_address PROBE_TIMEOUT (orac j)).1 = false) →
      driveRun rid orac now (2 * r.max_attempts + 2) sup =
        scheduleEviction
          (setRec sup rid
            { r with
               status := .ONLINE, attempts := i, finished_at := some now,
               task := some { pc := .taskDone, cancelRequested := false } })
          r.machine_id r.generation) ∧
    ((∀ j, 1 ≤ j → j ≤ r.max_attempts →
        (check_host_online r.ip_address PROBE_TIMEOUT (orac j)).1 = false) →
      driveRun rid orac now (2 * r.max_attempts + 2) sup =
        scheduleEviction
          (setRec sup rid
            { r with
               status := .TIMEOUT, attempts := r.max_attempts,
               finished_at := some now,
               task := some { pc := .taskDone, cancelRequested := false } })
          r.machine_id r.generation) := by
  have hlen := length_of_get? hr
  have hr' := hr
  rw [List.get?_eq_getElem?] at hr'
  refine ⟨rfl, ?_, ?_, ?_⟩
  · intro po hat
    rw [runResume_loopHead sup rid r .initialSleep po now hr' ht (Or.inl rfl),
      if_pos hat]
  · intro i h1i hile hsucc hfail
    have hd := drive_loop_online rid orac now (i - 1) sup r .initialSleep i
      hr ht (Or.inl rfl) (by omega) hile hsucc
      (fun j hj1 hj2 => hfail j (by omega) hj2)
    have harith : 2 * r.max_attempts + 2 =
        (2 * (r.max_attempts - i) + 2) + (2 * (i - 1) + 2) := by omega
    rw [harith,
      driveRun_add rid orac now (2 * (i - 1) + 2) (2 * (r.max_attempts - i) + 2)
        sup, hd]
    have hgetON : (scheduleEviction
        (setRec sup rid
          { r with
             status := .ONLINE, attempts := i, finished_at := some now,
             task := some { pc := .taskDone, cancelRequested := false } })
        r.machine_id r.generation).records.get? rid =
        some { r with
                status := .ONLINE, attempts := i, finished_at := some now,
                task := some { pc := .taskDone, cancelRequested := false } } := by
      show (sup.records.set rid _).get? rid = _
      exact List.get?_set_eq_of_lt _ hlen
    rw [driveRun_of_done rid orac now _ _ _ hgetON rfl rfl _]
  · intro hfail
    exact drive_loop_timeout rid orac now r.max_attempts sup r .initialSleep
      hr ht (Or.inl rfl) (by omega)
      (fun j h1 h2 => hfail j (by omega) h2)

/-- Concrete instance for C5: the pending monitor of supOne has
maxAttempts = 3; with ping outcomes fail, fail, success the loop ends ONLINE
with attempts = 3 and schedules the eviction for (key 1, generation 1); with
all failures it ends TIMEOUT with attempts = 3. -/
theorem spec_c5_witness :
    driveRun 0 oracFFT 9 8 supOne =
      scheduleEviction
        (setRec supOne 0
          { recOne with
             status := .ONLINE, attempts := 3, finished_at := some 9,
             task := some { pc := .taskDone, cancelRequested := false } })
        1 1 ∧
    driveRun 0 oracFail 9 8 supOne =
      scheduleEviction
        (setRec supOne 0
          { recOne with
             status := .TIMEOUT, attempts := 3, finished_at := some 9,
             task := some { pc := .taskDone, cancelRequested := false } })
        1 1 := by
  constructor
  · exact (spec_c5 supOne 0 recOne oracFFT 9 rfl rfl rfl).2.2.1 3 (by decide)
      (by decide) (by decide)
      (by intro j h1 h2; interval_cases j <;> decide)
  · refine (spec_c5 supOne 0 recOne oracFail 9 rfl rfl rfl).2.2.2 ?_
    intro j h1 h2
    show (check_host_online "10.0.0.1" 2 (.exited 1)).1 = false
    decide

-- ── Case characterizations of each operation on the heap ──────────────────

lemma cancelExisting_records_cases (sup : WakeMonitorManager) (k : Int)
    (now : Nat) :
    (cancelExisting sup k now).1.records = sup.records ∨
    ∃ rid r t, sup.records.get? rid = some r ∧ r.task = some t ∧
      t.pc ≠ .taskDone ∧
      (cancelExisting sup k now).1.records =
        sup.records.set rid
          { r with
             status := .CANCELLED, finished_at := some now,
             task := some { t with cancelRequested := true } } := by
  rcases hl : lookupMon sup.monitors k with _ | rid
  · left
    simp [cancelExisting, hl]
  · rcases hg : sup.records.get? rid with _ | r
    · left
      rw [List.get?_eq_getElem?] at hg
      simp [cancelExisting, hl, hg]
    · have hg' := hg
      rw [List.get?_eq_getElem?] at hg'
      rcases htask : r.task with _ | t
      · left
        simp [cancelExisting, hl, hg', htask]
      · by_cases hpc : t.pc = .taskDone
        · left
          simp [cancelExisting, hl, hg', htask, hpc]
        · right
          refine ⟨rid, r, t, hg, htask, hpc, ?_⟩
          simp [cancelExisting, hl, hg', htask, hpc, setRec]

lemma start_records_cases (sup : WakeMonitorManager) (k : Int) (nm ip : String)
    (ma iv now : Nat) :
    (start sup k nm ip ma iv now).2.records =
      (cancelExisting sup k now).1.records ∨
    ∃ st : MonitorState, (st.task = none ∨ st.status = .PENDING) ∧
      (start sup k nm ip ma iv now).2.records =
        (cancelExisting sup k now).1.records ++ [st] := by
  by_cases hcap : MAX_CONCURRENT ≤ activeCount (cancelExisting sup k now).1
  · left
    simp [start, hcap]
  · by_cases hip : ip = ""
    · right
      refine ⟨{
          machine_id := k
          machine_name := nm
          ip_address := ""
          generation := (cancelExisting sup k now).1.generation + 1
          status := .NO_IP
          attempts := 0
          max_attempts := 15
          interval := 10
          started_at := now
          finished_at := some now
          task := none }, Or.inl rfl, ?_⟩
      simp [start, hcap, hip, scheduleEviction]
    · right
      refine ⟨{
          machine_id := k
          machine_name := nm
          ip_address := ip
          generation := (cancelExisting sup k now).1.generation + 1
          status := .PENDING
          attempts := 0
          max_attempts := ma
          interval := iv
          started_at := now
          finished_at := none
          task := some { pc := .initialSleep, cancelRequested := false } },
        Or.inr rfl, ?_⟩
      simp [start, hcap, hip]

lemma cancelTaskOfRid_cases (recs : List MonitorState) (rid2 : Nat) :
    cancelTaskOfRid recs rid2 = recs ∨
    ∃ r t, recs.get? rid2 = some r ∧ r.task = some t ∧ t.pc ≠ .taskDone ∧
      cancelTaskOfRid recs rid2 =
        recs.set rid2 { r with task := some { t with cancelRequested := true } } := by
  rcases hg : recs.get? rid2 with _ | r
  · left
    rw [List.get?_eq_getElem?] at hg
    simp [cancelTaskOfRid, hg]
  · have hg2 := hg
    rw [List.get?_eq_getElem?] at hg2
    rcases htask : r.task with _ | t
    · left
      simp [cancelTaskOfRid, hg2, htask]
    · by_cases hpc : t.pc = .taskDone
      · left
        simp [cancelTaskOfRid, hg2, htask, hpc]
      · right
        exact ⟨r, t, rfl, htask, hpc, by simp [cancelTaskOfRid, hg2, htask, hpc]⟩

lemma runResume_records_cases (sup : WakeMonitorManager) (rid2 : Nat)
    (po : PingOutcome) (now : Nat) :
    (runResume sup rid2 po now).records = sup.records ∨
    ∃ r t, sup.records.get? rid2 = some r ∧ r.task = some t ∧
      t.pc ≠ .taskDone ∧
      ((t.cancelRequested = true ∧
        (runResume sup rid2 po now).records =
          sup.records.set rid2
            { r with
               status := .CANCELLED, finished_at := some now,
               task := some { t with pc := .taskDone } }) ∨
       (t.cancelRequested = false ∧
        ((runResume sup rid2 po now).records =
           sup.records.set rid2
             { r with
                status := .CHECKING, attempts := r.attempts + 1,
                task := some { t with pc := .probing } } ∨
         (runResume sup rid2 po now).records =
           sup.records.set rid2
             { r with
                status := .TIMEOUT, finished_at := some now,
                task := some { t with pc := .taskDone } } ∨
         (runResume sup rid2 po now).records =
           sup.records.set rid2
             { r with
                status := .ONLINE, finished_at := some now,
                task := some { t with pc := .taskDone } } ∨
         (runResume sup rid2 po now).records =
           sup.records.set rid2
             { r with task := some { t with pc := .intervalSleep } }))) := by
  rcases hg : sup.records.get? rid2 with _ | r
  · left
    rw [List.get?_eq_getElem?] at hg
    simp [runResume, hg]
  · have hg' := hg
    rw [List.get?_eq_getElem?] at hg'
    rcases htask : r.task with _ | t
    · left
      simp [runResume, hg', htask]
    · by_cases hpc : t.pc = .taskDone
      · left
        simp [runResume, hg', htask, hpc]
      · right
        refine ⟨r, t, rfl, htask, hpc, ?_⟩
        by_cases hcr : t.cancelRequested = true
        · left
          exact ⟨hcr, by simp [runResume, hg', htask, hpc, hcr, setRec]⟩
        · have hcr' : t.cancelRequested = false := by simpa using hcr
          right
          refine ⟨hcr', ?_⟩
          rcases hpcv : t.pc with _ | _ | _ | _
          · by_cases hat : r.attempts < r.max_attempts
            · exact Or.inl (by
                simp [runResume, hg', htask, hpc, hcr', hpcv, hat, setRec])
            · exact Or.inr (Or.inl (by
                simp [runResume, hg', htask, hpc, hcr', hpcv, hat, setRec,
                  scheduleEviction]))
          · by_cases hp : (check_host_online r.ip_address PROBE_TIMEOUT po).1 = true
            · exact Or.inr (Or.inr (Or.inl (by
                simp [runResume, hg', htask, hpc, hcr', hpcv, hp, setRec,
                  scheduleEviction])))
            · have hp' : (check_host_online r.ip_address PROBE_TIMEOUT po).1 = false := by
                simpa using hp
              exact Or.inr (Or.inr (Or.inr (by
                simp [runResume, hg', htask, hpc, hcr', hpcv, hp', setRec])))
          · by_cases hat : r.attempts < r.max_attempts
            · exact Or.inl (by
                simp [runResume, hg', htask, hpc, hcr', hpcv, hat, setRec])
            · exact Or.inr (Or.inl (by
                simp [runResume, hg', htask, hpc, hcr', hpcv, hat, setRec,
                  scheduleEviction]))
          · exact absurd hpcv hpc

lemma runError_records_cases (sup : WakeMonitorManager) (rid2 : Nat)
    (now : Nat) :
    (runError sup rid2 now).records = sup.records ∨
    ∃ r t, sup.records.get? rid2 = some r ∧ r.task = some t ∧
      t.pc ≠ .taskDone ∧ t.cancelRequested = false ∧
      (runError sup rid2 now).records =
        sup.records.set rid2
          { r with
             status := .TIMEOUT, finished_at := some now,
             task := some { t with pc := .taskDone } } := by
  rcases hg : sup.records.get? rid2 with _ | r
  · left
    rw [List.get?_eq_getElem?] at hg
    simp [runError, hg]
  · have hg' := hg
    rw [List.get?_eq_getElem?] at hg'
    rcases htask : r.task with _ | t
    · left
      simp [runError, hg', htask]
    · by_cases hpc : t.pc = .taskDone
      · left
        simp [runError, hg', htask, hpc]
      · by_cases hcr : t.cancelRequested = true
        · left
          simp [runError, hg', htask, hpc, hcr]
        · have hcr' : t.cancelRequested = false := by simpa using hcr
          right
          exact ⟨r, t, rfl, htask, hpc, hcr', by
            simp [runError, hg', htask, hpc, hcr', setRec, scheduleEviction]⟩

lemma evictFire_records (sup : WakeMonitorManager) (i : Nat) :
    (evictFire sup i).records = sup.records := by
  unfold evictFire evictAction
  split
  · rfl
  · split
    · rfl
    · split
      · rfl
      · split <;> rfl

-- ── Preservation of the invariant ─────────────────────────────────────────

lemma supInv_init : SupInv initManager := by
  intro r hr
  simp [initManager] at hr

lemma supInv_cancelExisting (sup : WakeMonitorManager) (k : Int) (now : Nat)
    (hinv : SupInv sup) : SupInv (cancelExisting sup k now).1 := by
  rcases cancelExisting_records_cases sup k now with h |
    ⟨rid, r, t, hg, htask, hpc, h⟩
  · intro r2 h2
    rw [h] at h2
    exact hinv r2 h2
  · intro r2 h2
    rw [h] at h2
    rcases List.mem_or_eq_of_mem_set h2 with h3 | h3
    · exact hinv r2 h3
    · subst h3
      intro t2 ht2 hpc2
      right
      have ht2' : ({ t with cancelRequested := true } : TaskState) = t2 :=
        Option.some.inj ht2
      exact ⟨by rw [← ht2'], rfl⟩

lemma supInv_start (sup : WakeMonitorManager) (k : Int) (nm ip : String)
    (ma iv now : Nat) (hinv : SupInv sup) :
    SupInv (start sup k nm ip ma iv now).2 := by
  have h1 := supInv_cancelExisting sup k now hinv
  rcases start_records_cases sup k nm ip ma iv now with h | ⟨st, hst, h⟩
  · intro r2 h2
    rw [h] at h2
    exact h1 r2 h2
  · intro r2 h2
    rw [h] at h2
    rcases List.mem_append.mp h2 with h3 | h3
    · exact h1 r2 h3
    · have h4 : r2 = st := by simpa using h3
      subst h4
      rcases hst with hnone | hpend
      · intro t2 ht2 hpc2
        rw [hnone] at ht2
        cases ht2
      · intro t2 ht2 hpc2
        left
        rw [hpend]
        rfl

lemma supInv_cancelTaskOfRid (recs : List MonitorState) (rid2 : Nat)
    (h : ∀ r ∈ recs, LiveTaskOk r) :
    ∀ r ∈ cancelTaskOfRid recs rid2, LiveTaskOk r := by
  rcases cancelTaskOfRid_cases recs rid2 with heq | ⟨r, t, hg, ht, hpc, heq⟩
  · rw [heq]
    exact h
  · rw [heq]
    intro r2 h2
    rcases List.mem_or_eq_of_mem_set h2 with h3 | h3
    · exact h r2 h3
    · subst h3
      intro t2 ht2 hpc2
      have ht2' : ({ t with cancelRequested := true } : TaskState) = t2 :=
        Option.some.inj ht2
      have hprev := h r (List.get?_mem hg) t ht hpc
      rcases hprev with hterm | ⟨hc, hs⟩
      · left
        exact hterm
      · right
        exact ⟨by rw [← ht2'], hs⟩

lemma supInv_shutdown (sup : WakeMonitorManager) (hinv : SupInv sup) :
    SupInv (shutdown sup) := by
  have hfold : ∀ (m : List (Int × Nat)) (recs : List MonitorState),
      (∀ r ∈ recs, LiveTaskOk r) →
      ∀ r ∈ m.foldl (fun recs p => cancelTaskOfRid recs p.2) recs,
        LiveTaskOk r := by
    intro m
    induction m with
    | nil => intro recs h r hr; exact h r hr
    | cons p rest ih =>
      intro recs h
      exact ih _ (supInv_cancelTaskOfRid recs p.2 h)
  intro r hr
  exact hfold sup.monitors sup.records hinv r hr

lemma supInv_runResume (sup : WakeMonitorManager) (rid2 : Nat)
    (po : PingOutcome) (now : Nat) (hinv : SupInv sup) :
    SupInv (runResume sup rid2 po now) := by
  rcases runResume_records_cases sup rid2 po now with h |
    ⟨r, t, hg, ht, hpc, hcase⟩
  · intro r2 h2
    rw [h] at h2
    exact hinv r2 h2
  · have hprev := hinv r (List.get?_mem hg) t ht hpc
    rcases hcase with ⟨hcr, heq⟩ | ⟨hcr, hsub⟩
    · intro r2 h2
      rw [heq] at h2
      rcases List.mem_or_eq_of_mem_set h2 with h3 | h3
      · exact hinv r2 h3
      · subst h3
        intro t2 ht2 hpc2
        have ht2' : ({ t with pc := .taskDone } : TaskState) = t2 :=
          Option.some.inj ht2
        rw [← ht2'] at hpc2
        exact absurd rfl hpc2
    · rcases hsub with heq | heq | heq | heq
      · intro r2 h2
        rw [heq] at h2
        rcases List.mem_or_eq_of_mem_set h2 with h3 | h3
        · exact hinv r2 h3
        · subst h3
          intro t2 ht2 hpc2
          left
          rfl
      · intro r2 h2
        rw [heq] at h2
        rcases List.mem_or_eq_of_mem_set h2 with h3 | h3
        · exact hinv r2 h3
        · subst h3
          intro t2 ht2 hpc2
          have ht2' : ({ t with pc := .taskDone } : TaskState) = t2 :=
            Option.some.inj ht2
          rw [← ht2'] at hpc2
          exact absurd rfl hpc2
      · intro r2 h2
        rw [heq] at h2
        rcases List.mem_or_eq_of_mem_set h2 with h3 | h3
        · exact hinv r2 h3
        · subst h3
          intro t2 ht2 hpc2
          have ht2' : ({ t with pc := .taskDone } : TaskState) = t2 :=
            Option.some.inj ht2
          rw [← ht2'] at hpc2
          exact absurd rfl hpc2
      · intro r2 h2
        rw [heq] at h2
        rcases List.mem_or_eq_of_mem_set h2 with h3 | h3
        · exact hinv r2 h3
        · subst h3
          intro t2 ht2 hpc2
          rcases hprev with hterm | ⟨hc, hs⟩
          · left
            exact hterm
          · rw [hc] at hcr
            cases hcr

lemma supInv_runError (sup : WakeMonitorManager) (rid2 : Nat) (now : Nat)
    (hinv : SupInv sup) : SupInv (runError sup rid2 now) := by
  rcases runError_records_cases sup rid2 now with h |
    ⟨r, t, hg, ht, hpc, hcr, heq⟩
  · intro r2 h2
    rw [h] at h2
    exact hinv r2 h2
  · intro r2 h2
    rw [heq] at h2
    rcases List.mem_or_eq_of_mem_set h2 with h3 | h3
    · exact hinv r2 h3
    · subst h3
      intro t2 ht2 hpc2
      have ht2' : ({ t with pc := .taskDone } : TaskState) = t2 :=
        Option.some.inj ht2
      rw [← ht2'] at hpc2
      exact absurd rfl hpc2

lemma supInv_evictFire (sup : WakeMonitorManager) (i : Nat)
    (hinv : SupInv sup) : SupInv (evictFire sup i) := by
  intro r hr
  rw [evictFire_records] at hr
  exact hinv r hr

lemma supInv_step {s s' : WakeMonitorManager} (hinv : SupInv s)
    (hstep : Step s s') : SupInv s' := by
  cases hstep with
  | startStep k nm ip ma iv now => exact supInv_start s k nm ip ma iv now hinv
  | cancelStep k now => exact supInv_cancelExisting s k now hinv
  | shutdownStep => exact supInv_shutdown s hinv
  | resumeStep rid po now => exact supInv_runResume s rid po now hinv
  | errorStep rid now => exact supInv_runError s rid now hinv
  | evictStep i => exact supInv_evictFire s i hinv

lemma supInv_reachable {s : WakeMonitorManager} (h : Reachable s) :
    SupInv s := by
  induction h with
  | init => exact supInv_init
  | step h1 h2 ih => exact supInv_step ih h2

-- ── Status preservation lemmas ────────────────────────────────────────────

lemma status_of_set {l : List MonitorState} {rid2 rid : Nat}
    {newr r r' : MonitorState} (hr : l.get? rid = some r)
    (hr' : (l.set rid2 newr).get? rid = some r') :
    (rid = rid2 ∧ r' = newr) ∨ r' = r := by
  by_cases h : rid2 = rid
  · subst h
    rw [List.get?_set_eq_of_lt _ (length_of_get? hr)] at hr'
    exact Or.inl ⟨rfl, (Option.some.inj hr').symm⟩
  · rw [List.get?_set_ne _ _ h, hr] at hr'
    exact Or.inr (Option.some.inj hr').symm

lemma statusPres_cancelExisting (s : WakeMonitorManager) (k : Int) (now : Nat)
    (hinv : SupInv s) (rid : Nat) (r r' : MonitorState)
    (hr : s.records.get? rid = some r) (hterm : isTerminal r.status = true)
    (hr' : (cancelExisting s k now).1.records.get? rid = some r') :
    r'.status = r.status := by
  rcases cancelExisting_records_cases s k now with hc |
    ⟨rid2, rr, tt, hg2, ht2, hpc2, hc⟩
  · rw [hc, hr] at hr'
    have := Option.some.inj hr'
    rw [← this]
  · rw [hc] at hr'
    rcases status_of_set hr hr' with ⟨hid, hnew⟩ | hnew
    · subst hid
      have hrr : rr = r := by
        rw [hg2] at hr
        exact Option.some.inj hr
      subst hrr
      have hprev := hinv rr (List.get?_mem hg2) tt ht2 hpc2
      rcases hprev with hfalse | ⟨hc2, hs2⟩
      · rw [hfalse] at hterm
        cases hterm
      · rw [hnew]
        exact hs2.symm
    · rw [hnew]

lemma statusMap_cancelTaskOfRid (recs : List MonitorState) (rid2 rid : Nat) :
    ((cancelTaskOfRid recs rid2).get? rid).map MonitorState.status =
      (recs.get? rid).map MonitorState.status := by
  rcases cancelTaskOfRid_cases recs rid2 with heq | ⟨r, t, hg, ht, hpc, heq⟩
  · rw [heq]
  · rw [heq]
    by_cases h : rid2 = rid
    · subst h
      rw [List.get?_set_eq_of_lt _ (length_of_get? hg), hg]
      rfl
    · rw [List.get?_set_ne _ _ h]

lemma statusMap_shutdown (sup : WakeMonitorManager) (rid : Nat) :
    ((shutdown sup).records.get? rid).map MonitorState.status =
      (sup.records.get? rid).map MonitorState.status := by
  have hfold : ∀ (m : List (Int × Nat)) (recs : List MonitorState),
      ((m.foldl (fun recs p => cancelTaskOfRid recs p.2) recs).get? rid).map
          MonitorState.status =
        (recs.get? rid).map MonitorState.status := by
    intro m
    induction m with
    | nil => intro recs; rfl
    | cons p rest ih =>
      intro recs
      rw [List.foldl_cons, ih, statusMap_cancelTaskOfRid]
  exact hfold sup.monitors sup.records

-- ── C8: terminal statuses are final ───────────────────────────────────────

/-- C8: along any reachable execution, no step of the system — a start(),
cancel(), shutdown(), a poll-task resume, an unexpected poll-task error, or
an eviction firing — changes the status of a record that already reached a
terminal status (ONLINE, TIMEOUT, CANCELLED, NO_IP). -/
theorem spec_c8 {s s' : WakeMonitorManager} (hreach : Reachable s)
    (hstep : Step s s') (rid : Nat) (r r' : MonitorState)
    (hr : s.records.get? rid = some r)
    (hr' : s'.records.get? rid = some r')
    (hterm : isTerminal r.status = true) : r'.status = r.status := by
  have hinv := supInv_reachable hreach
  cases hstep with
  | startStep k nm ip ma iv now =>
    rcases start_records_cases s k nm ip ma iv now with h | ⟨st, hst, h⟩
    · rw [h] at hr'
      exact statusPres_cancelExisting s k now hinv rid r r' hr hterm hr'
    · rw [h] at hr'
      have hlen : rid < (cancelExisting s k now).1.records.length := by
        rw [cancelExisting_records_length]
        exact length_of_get? hr
      rw [List.get?_append hlen] at hr'
      exact statusPres_cancelExisting s k now hinv rid r r' hr hterm hr'
  | cancelStep k now =>
    exact statusPres_cancelExisting s k now hinv rid r r' hr hterm hr'
  | shutdownStep =>
    have h := statusMap_shutdown s rid
    rw [hr, hr'] at h
    exact Option.some.inj h
  | resumeStep rid2 po now =>
    rcases runResume_records_cases s rid2 po now with h |
      ⟨rr, tt, hg2, ht2, hpc2, hcase⟩
    · rw [h, hr] at hr'
      have := Option.some.inj hr'
      rw [← this]
    · have hterm2 : ∀ (hid : rid = rid2), rr = r := by
        intro hid
        subst hid
        rw [hg2] at hr
        exact Option.some.inj hr
      rcases hcase with ⟨hcr, heq⟩ | ⟨hcr, hsub⟩
      · rw [heq] at hr'
        rcases status_of_set hr hr' with ⟨hid, hnew⟩ | hnew
        · have hrr := hterm2 hid
          subst hid
          subst hrr
          have hprev := hinv rr (List.get?_mem hg2) tt ht2 hpc2
          rcases hprev with hfalse | ⟨hc2, hs2⟩
          · rw [hfalse] at hterm
            cases hterm
          · rw [hnew]
            exact hs2.symm
        · rw [hnew]
      · rcases hsub with heq | heq | heq | heq
        · rw [heq] at hr'
          rcases status_of_set hr hr' with ⟨hid, hnew⟩ | hnew
          · have hrr := hterm2 hid
            subst hid
            subst hrr
            have hprev := hinv rr (List.get?_mem hg2) tt ht2 hpc2
            rcases hprev with hfalse | ⟨hc2, hs2⟩
            · rw [hfalse] at hterm
              cases hterm
            · rw [hc2] at hcr
              cases hcr
          · rw [hnew]
        · rw [heq] at hr'
          rcases status_of_set hr hr' with ⟨hid, hnew⟩ | hnew
          · have hrr := hterm2 hid
            subst hid
            subst hrr
            have hprev := hinv rr (List.get?_mem hg2) tt ht2 hpc2
            rcases hprev with hfalse | ⟨hc2, hs2⟩
            · rw [hfalse] at hterm
              cases hterm
            · rw [hc2] at hcr
              cases hcr
          · rw [hnew]
        · rw [heq] at hr'
          rcases status_of_set hr hr' with ⟨hid, hnew⟩ | hnew
          · have hrr := hterm2 hid
            subst hid
            subst hrr
            have hprev := hinv rr (List.get?_mem hg2) tt ht2 hpc2
            rcases hprev with hfalse | ⟨hc2, hs2⟩
            · rw [hfalse] at hterm
              cases hterm
            · rw [hc2] at hcr
              cases hcr
          · rw [hnew]
        · rw [heq] at hr'
          rcases status_of_set hr hr' with ⟨hid, hnew⟩ | hnew
          · have hrr := hterm2 hid
            subst hid
            subst hrr
            rw [hnew]
          · rw [hnew]
  | errorStep rid2 now =>
    rcases runError_records_cases s rid2 now with h |
      ⟨rr, tt, hg2, ht2, hpc2, hcr, heq⟩
    · rw [h, hr] at hr'
      have := Option.some.inj hr'
      rw [← this]
    · rw [heq] at hr'
      rcases status_of_set hr hr' with ⟨hid, hnew⟩ | hnew
      · subst hid
        have hrr : rr = r := by
          rw [hg2] at hr
          exact Option.some.inj hr
        subst hrr
        have hprev := hinv rr (List.get?_mem hg2) tt ht2 hpc2
        rcases hprev with hfalse | ⟨hc2, hs2⟩
        · rw [hfalse] at hterm
          cases hterm
        · rw [hc2] at hcr
          cases hcr
      · rw [hnew]
  | evictStep i =>
    rw [evictFire_records, hr] at hr'
    have := Option.some.inj hr'
    rw [← this]

/-- Concrete instance for C8: supNoIp is reachable from a fresh manager by
one start(); cancelling key 1 is a step after which the terminal NO_IP
record at heap index 0 still has status NO_IP. -/
theorem spec_c8_witness :
    isTerminal recNoIp.status = true ∧
    ((cancel supNoIp 1 5).1.records.get? 0).map MonitorState.status =
      some recNoIp.status := by
  have hreach : Reachable supNoIp :=
    Reachable.step Reachable.init (Step.startStep initManager 1 "m" "" 15 10 0)
  have hstep : Step supNoIp (cancel supNoIp 1 5).1 :=
    Step.cancelStep supNoIp 1 5
  have h := spec_c8 hreach hstep 0 recNoIp recNoIp rfl rfl (by decide)
  exact ⟨by decide, by
    rw [show (cancel supNoIp 1 5).1.records.get? 0 = some recNoIp from rfl]
    rfl⟩

-- ── Generation counter lemmas ─────────────────────────────────────────────

lemma runResume_generation (sup : WakeMonitorManager) (rid : Nat)
    (po : PingOutcome) (now : Nat) :
    (runResume sup rid po now).generation = sup.generation := by
  unfold runResume
  repeat' split
  all_goals rfl

lemma runError_generation (sup : WakeMonitorManager) (rid : Nat) (now : Nat) :
    (runError sup rid now).generation = sup.generation := by
  unfold runError
  repeat' split
  all_goals rfl

lemma evictFire_generation (sup : WakeMonitorManager) (i : Nat) :
    (evictFire sup i).generation = sup.generation := by
  unfold evictFire evictAction
  repeat' split
  all_goals rfl

lemma start_gen_nonrefused (sup : WakeMonitorManager) (k : Int)
    (nm ip : String) (ma iv now : Nat)
    (h : activeCount (cancelExisting sup k now).1 < MAX_CONCURRENT) :
    (start sup k nm ip ma iv now).1.generation = sup.generation + 1 ∧
    (start sup k nm ip ma iv now).2.generation = sup.generation + 1 := by
  have hnle : ¬ MAX_CONCURRENT ≤ activeCount (cancelExisting sup k now).1 :=
    Nat.not_le.mpr h
  constructor <;> by_cases hip : ip = "" <;>
    simp [start, hnle, hip, scheduleEviction, cancelExisting_generation]

lemma start_generation_cases (sup : WakeMonitorManager) (k : Int)
    (nm ip : String) (ma iv now : Nat) :
    (start sup k nm ip ma iv now).2.generation = sup.generation ∨
    (start sup k nm ip ma iv now).2.generation = sup.generation + 1 := by
  by_cases hcap : MAX_CONCURRENT ≤ activeCount (cancelExisting sup k now).1
  · left
    simp [start, hcap, cancelExisting_generation]
  · right
    exact (start_gen_nonrefused sup k nm ip ma iv now (Nat.not_le.mp hcap)).2

lemma generation_mono_step {s s' : WakeMonitorManager} (h : Step s s') :
    s.generation ≤ s'.generation := by
  cases h with
  | startStep k nm ip ma iv now =>
    rcases start_generation_cases s k nm ip ma iv now with h | h <;> omega
  | cancelStep k now =>
    exact le_of_eq (cancelExisting_generation s k now).symm
  | shutdownStep => exact Nat.le_refl _
  | resumeStep rid po now =>
    exact le_of_eq (runResume_generation s rid po now).symm
  | errorStep rid now =>
    exact le_of_eq (runError_generation s rid now).symm
  | evictStep i =>
    exact le_of_eq (evictFire_generation s i).symm

lemma generation_mono_rtg {s s' : WakeMonitorManager}
    (h : Relation.ReflTransGen Step s s') : s.generation ≤ s'.generation := by
  induction h with
  | refl => exact Nat.le_refl _
  | tail hsteps hstep ih => exact le_trans ih (generation_mono_step hstep)

-- ── C4 (amended): generations of non-refused records ─────────────────────

/-- C4, amended: every start() that passes the capacity check returns a
record whose generation is the freshly incremented global counter (and the
counter advances to it); the counter never decreases under any step of the
system; hence for any key, a later non-refused start() (after any sequence
of steps) returns a strictly greater generation than an earlier one —
generations strictly increase and are never reused.  (Capacity-refusal
records are excluded: they carry the dataclass default generation 0 and do
not touch the counter.) -/
theorem spec_c4 :
    (∀ (sup : WakeMonitorManager) (k : Int) (nm ip : String) (ma iv now : Nat),
      activeCount (cancelExisting sup k now).1 < MAX_CONCURRENT →
      (start sup k nm ip ma iv now).1.generation = sup.generation + 1 ∧
      (start sup k nm ip ma iv now).2.generation = sup.generation + 1) ∧
    (∀ s s' : WakeMonitorManager, Step s s' → s.generation ≤ s'.generation) ∧
    (∀ (s1 : WakeMonitorManager) (k : Int) (nm ip : String) (ma iv now1 : Nat)
       (s2 : WakeMonitorManager) (nm2 ip2 : String) (ma2 iv2 now2 : Nat),
      activeCount (cancelExisting s1 k now1).1 < MAX_CONCURRENT →
      Relation.ReflTransGen Step (start s1 k nm ip ma iv now1).2 s2 →
      activeCount (cancelExisting s2 k now2).1 < MAX_CONCURRENT →
      (start s1 k nm ip ma iv now1).1.generation <
        (start s2 k nm2 ip2 ma2 iv2 now2).1.generation) := by
  refine ⟨fun sup k nm ip ma iv now h => start_gen_nonrefused sup k nm ip ma iv now h,
    fun s s' h => generation_mono_step h, ?_⟩
  intro s1 k nm ip ma iv now1 s2 nm2 ip2 ma2 iv2 now2 h1 hrtg h2
  have e1 := start_gen_nonrefused s1 k nm ip ma iv now1 h1
  have e2 := start_gen_nonrefused s2 k nm2 ip2 ma2 iv2 now2 h2
  have hmono : (start s1 k nm ip ma iv now1).2.generation ≤ s2.generation :=
    generation_mono_rtg hrtg
  rw [e1.2] at hmono
  rw [e1.1, e2.1]
  omega

set_option maxRecDepth 100000 in
set_option maxHeartbeats 1000000 in
/-- Counterexample to C4 as stated: with 50 pending monitors on keys 0..49
(a reachable state built by 50 start() calls), two successive start() calls
on key 100 are both refused by the capacity check and both return records
with generation 0 — the second record does not carry a strictly greater
generation than the first, and the generation 0 is reused. -/
theorem spec_c4_counterexample :
    (start supFull 100 "m" "10.0.0.1" 15 10 10).1.generation = 0 ∧
    (start (start supFull 100 "m" "10.0.0.1" 15 10 10).2 100 "m" "10.0.0.1"
      15 10 11).1.generation = 0 ∧
    ¬ ((start supFull 100 "m" "10.0.0.1" 15 10 10).1.generation <
       (start (start supFull 100 "m" "10.0.0.1" 15 10 10).2 100 "m"
         "10.0.0.1" 15 10 11).1.generation) := by
  exact ⟨by decide, by decide, by decide⟩

/-- Concrete instance for the amended C4: on a fresh manager the first
start() for key 1 returns generation 1 and an immediately following start()
for key 1 returns generation 2. -/
theorem spec_c4_witness :
    (start initManager 1 "m" "10.0.0.1" 15 10 0).1.generation = 1 ∧
    (start (start initManager 1 "m" "10.0.0.1" 15 10 0).2 1 "n" "10.0.0.2"
      15 10 5).1.generation = 2 ∧
    (start initManager 1 "m" "10.0.0.1" 15 10 0).1.generation <
      (start (start initManager 1 "m" "10.0.0.1" 15 10 0).2 1 "n" "10.0.0.2"
        15 10 5).1.generation := by
  refine ⟨?_, ?_, ?_⟩
  · exact (spec_c4.1 initManager 1 "m" "10.0.0.1" 15 10 0 (by decide)).1.trans
      (by decide)
  · exact (spec_c4.1 (start initManager 1 "m" "10.0.0.1" 15 10 0).2 1 "n"
      "10.0.0.2" 15 10 5 (by decide)).1.trans (by decide)
  · exact spec_c4.2.2 initManager 1 "m" "10.0.0.1" 15 10 0
      (start initManager 1 "m" "10.0.0.1" 15 10 0).2 "n" "10.0.0.2" 15 10 5
      (by decide) Relation.ReflTransGen.refl (by decide)
